import Mathlib

/-!
# Verification of the Mosaic TPU custom-call lowering and config encoding

A shallow embedding of `jax/_src/tpu_custom_call.py`: the backend-config
JSON encoder (`CustomCallBackendConfig.to_json`), the config construction
invariants (`_lowered_to_custom_call_config`), the kernel lowering pipeline
(`_lower_tpu_kernel`), the lowering decision procedure
(`_lower_mosaic_module_to_asm`), and the partitioning validation in
`_tpu_custom_call_lowering`.

Byte strings are modelled as `List Char` (every byte the code emits is
ASCII).  Python `bytes` inputs are `List Nat`.  Python `int` is `Int`,
`str(int)` is decimal rendering.  Python `float` values only ever appear as
opaque rendered decimal strings in the output, so a float flag value is
modelled by its `str()` rendering (floating-point arithmetic itself never
occurs in this code).  Python `dict[str, ...]` is an insertion-ordered
association list, matching dict iteration order.  The imperative
`io.BytesIO` buffer of `to_json` is threaded explicitly: each `if`-guarded
block of `config.write` calls becomes one buffer-transforming step
function, applied in the source's order.
-/

deriving instance DecidableEq for Except

/-- Characters of a Lean string literal, used for ASCII byte-string
templates. -/
def chrs (s : String) : List Char := s.data

/-- `CostEstimate` from the source: three integer fields. -/
structure CostEstimate where
  flops : Int
  transcendentals : Int
  bytes_accessed : Int
deriving DecidableEq, Repr

/-- A value of the Python union `bool | int | float` (plus any other type,
which the encoder rejects).  A float is carried as its `str()` rendering;
an `other` value is carried as its `str()` rendering too, used only in the
error message. -/
inductive FlagValue where
  | boolean (b : Bool)
  | integer (i : Int)
  | double (render : List Char)
  | other (render : List Char)
deriving DecidableEq, Repr

instance : Nonempty FlagValue := ⟨.boolean true⟩

instance : Nonempty (List Char × FlagValue) := ⟨([], .boolean true)⟩

instance : Nonempty (List (List Char × FlagValue)) := ⟨[]⟩

/-- `CustomCallBackendConfig` from the source.  `flags` is an
insertion-ordered association list modelling the Python dict. -/
structure CustomCallBackendConfig where
  lowered_module_asm : List Nat
  has_communication : Bool
  collective_id : Option Int
  device_type : Option (List Char)
  cost_estimate : Option CostEstimate
  needs_hlo_passes : Bool
  needs_layout_passes : Bool
  vmem_limit_bytes : Option Int
  flags : Option (List (List Char × FlagValue))
  allow_input_fusion : Option (List Bool)
  serialization_format : Option Int
  internal_scratch_in_bytes : Option Int
deriving DecidableEq, Repr

/-- Decimal digit character. -/
def digitChar (d : Nat) : Char := Char.ofNat (48 + d)

/-- Decimal rendering of a natural number (auxiliary, fuel-driven). -/
def natCharsAux : Nat → Nat → List Char
  | 0, _ => []
  | fuel + 1, n =>
    if n < 10 then [digitChar n]
    else natCharsAux fuel (n / 10) ++ [digitChar (n % 10)]

/-- Decimal rendering of a natural number, as Python `str` renders it. -/
def natChars (n : Nat) : List Char := natCharsAux (n + 1) n

/-- Decimal rendering of an integer, as Python `str` renders it. -/
def intChars : Int → List Char
  | .ofNat n => natChars n
  | .negSucc n => '-' :: natChars (n + 1)

/-- `str(bool).lower()` from the source: `"true"` / `"false"`. -/
def pyBool (b : Bool) : List Char := if b then chrs "true" else chrs "false"

/-- The base64 alphabet, as used by `base64.b64encode`. -/
def b64Alphabet : List Char :=
  chrs "ABCDEFGHIJKLMNOPQRSTUVWXYZabcdefghijklmnopqrstuvwxyz0123456789+/"

/-- The base64 character for a 6-bit group. -/
def b64char (n : Nat) : Char := b64Alphabet.getD n 'A'

/-- `base64.b64encode` on a byte string (bytes are `Nat`s below 256). -/
def base64 : List Nat → List Char
  | [] => []
  | [b1] => [b64char (b1 / 4 % 64), b64char (b1 % 4 * 16), '=', '=']
  | [b1, b2] =>
      [b64char (b1 / 4 % 64), b64char (b1 % 4 * 16 + b2 / 16 % 16),
       b64char (b2 % 16 * 4), '=']
  | b1 :: b2 :: b3 :: rest =>
      [b64char (b1 / 4 % 64), b64char (b1 % 4 * 16 + b2 / 16 % 16),
       b64char (b2 % 16 * 4 + b3 / 64 % 4), b64char (b3 % 64)] ++ base64 rest

/-- `CostEstimate.to_json` from the source. -/
def CostEstimate.to_json (ce : CostEstimate) : List Char :=
  chrs "\x7b\"flops\": " ++ intChars ce.flops ++
  chrs ", \"transcendentals\": " ++ intChars ce.transcendentals ++
  chrs ", \"bytes_accessed\": " ++ intChars ce.bytes_accessed ++ chrs "\x7d"

/-- Python `str.upper` restricted to ASCII letters (device-type tags are
short ASCII strings). -/
def asciiUpper (c : Char) : Char :=
  if 'a' ≤ c ∧ c ≤ 'z' then Char.ofNat (c.toNat - 32) else c

/-- The `allow_input_fusion` loop of `to_json`: writes `true`/`false` for
each element, with a comma after every element except the last
(`i + 1 != len` in the source is `rest ≠ []` here). -/
def writeFusionLoop (buf : List Char) : List Bool → List Char
  | [] => buf
  | b :: rest =>
      writeFusionLoop
        (buf ++ (if b then chrs "true" else chrs "false") ++
          (if rest = [] then [] else chrs ","))
        rest

/-- The `flag_configs` loop of `to_json`: writes one entry per flag, with a
comma after every entry except the last; raises `ValueError` on a flag
value that is not a bool, int, or float.  The `isinstance` dispatch tests
`bool` before `int`, as in the source. -/
def writeFlagsLoop (buf : List Char) :
    List (List Char × FlagValue) → Except (List Char) (List Char)
  | [] => .ok buf
  | (flag, value) :: rest =>
      let buf := buf ++ chrs "\x7b\"flag_type\": \"" ++ flag ++ chrs "\", value: \x7b"
      match value with
      | .boolean b =>
          writeFlagsLoop
            ((buf ++ chrs "\"boolean_value\": " ++
               (if b then chrs "true" else chrs "false") ++ chrs "\x7d\x7d") ++
              (if rest = [] then [] else chrs ",")) rest
      | .integer i =>
          writeFlagsLoop
            ((buf ++ chrs "\"integer_value\": " ++ intChars i ++ chrs "\x7d\x7d") ++
              (if rest = [] then [] else chrs ",")) rest
      | .double render =>
          writeFlagsLoop
            ((buf ++ chrs "\"double_value\": " ++ render ++ chrs "\x7d\x7d") ++
              (if rest = [] then [] else chrs ",")) rest
      | .other render => .error (chrs "invalid flag value: " ++ render)

/-- `to_json`, lines 111-113: `has_communication` is written only when
truthy. -/
def writeHasCommunication (c : CustomCallBackendConfig) (config : List Char) : List Char :=
  if c.has_communication then
    config ++ chrs ", \"has_communication\": " ++ pyBool c.has_communication
  else config

/-- `to_json`, lines 114-116: `collective_id` is written when not `None`. -/
def writeCollectiveId (c : CustomCallBackendConfig) (config : List Char) : List Char :=
  match c.collective_id with
  | none => config
  | some n => config ++ chrs ", \"collective_id\": " ++ intChars n

/-- `to_json`, lines 117-119: `cost_estimate` is written when not `None`. -/
def writeCostEstimate (c : CustomCallBackendConfig) (config : List Char) : List Char :=
  match c.cost_estimate with
  | none => config
  | some ce => config ++ chrs ", \"cost_estimate\": " ++ ce.to_json

/-- `to_json`, lines 120-122: `needs_hlo_passes` is written only when
truthy. -/
def writeNeedsHloPasses (c : CustomCallBackendConfig) (config : List Char) : List Char :=
  if c.needs_hlo_passes then
    config ++ chrs ", \"needs_hlo_passes\": " ++ pyBool c.needs_hlo_passes
  else config

/-- `to_json`, lines 123-125: `serialization_format` is written when not
`None`. -/
def writeSerializationFormat (c : CustomCallBackendConfig) (config : List Char) : List Char :=
  match c.serialization_format with
  | none => config
  | some n => config ++ chrs ", \"serialization_format\": " ++ intChars n

/-- `to_json`, lines 126-128: `needs_layout_passes` is written only when
truthy. -/
def writeNeedsLayoutPasses (c : CustomCallBackendConfig) (config : List Char) : List Char :=
  if c.needs_layout_passes then
    config ++ chrs ", \"needs_layout_passes\": " ++ pyBool c.needs_layout_passes
  else config

/-- `to_json`, lines 129-136: `allow_input_fusion` is written when not
`None`. -/
def writeAllowInputFusion (c : CustomCallBackendConfig) (config : List Char) : List Char :=
  match c.allow_input_fusion with
  | none => config
  | some l => writeFusionLoop (config ++ chrs ", \"allow_input_fusion\": [") l ++ chrs "]"

/-- `to_json`, lines 137-139: `internal_scratch_in_bytes` is written when
not `None`. -/
def writeInternalScratch (c : CustomCallBackendConfig) (config : List Char) : List Char :=
  match c.internal_scratch_in_bytes with
  | none => config
  | some n => config ++ chrs ", \"internal_scratch_in_bytes\": " ++ intChars n

/-- `to_json`, lines 141-145: `device_type` is written when not `None`,
upper-cased with the `DEVICE_TYPE_` prefix. -/
def writeDeviceType (c : CustomCallBackendConfig) (config : List Char) : List Char :=
  match c.device_type with
  | none => config
  | some dt => config ++ chrs ", \"device_type\": " ++
      (chrs "\"DEVICE_TYPE_" ++ dt.map asciiUpper ++ chrs "\"")

/-- `to_json`, lines 146-152: `vmem_limit_bytes` is written when not
`None`, as a `scoped_memory_configs` entry. -/
def writeScopedMemoryConfigs (c : CustomCallBackendConfig) (config : List Char) : List Char :=
  match c.vmem_limit_bytes with
  | none => config
  | some n => config ++
      chrs ", \"scoped_memory_configs\": [\x7b\"memory_space\":1, \"offset\": 0, \"size\": " ++
      intChars n ++ chrs "\x7d]"

/-- `to_json`, lines 153-173: `flag_configs` is written when `flags` is not
`None`; the loop may raise on an invalid flag value. -/
def writeFlagConfigs (c : CustomCallBackendConfig) (config : List Char) :
    Except (List Char) (List Char) :=
  match c.flags with
  | none => .ok config
  | some fs =>
      match writeFlagsLoop (config ++ chrs ", \"flag_configs\": [") fs with
      | .ok buf => .ok (buf ++ chrs "]")
      | .error e => .error e

/-- `CustomCallBackendConfig.to_json` from the source: the sequence of
`config.write` steps in source order, threaded through the byte buffer; the
only failure is the `ValueError` raised for an invalid flag value. -/
def CustomCallBackendConfig.to_json (c : CustomCallBackendConfig) :
    Except (List Char) (List Char) :=
  let config := chrs "\x7b\"custom_call_config\": \x7b\"body\": \"" ++
    base64 c.lowered_module_asm ++ chrs "\""
  let config := writeHasCommunication c config
  let config := writeCollectiveId c config
  let config := writeCostEstimate c config
  let config := writeNeedsHloPasses c config
  let config := writeSerializationFormat c config
  let config := writeNeedsLayoutPasses c config
  let config := writeAllowInputFusion c config
  let config := writeInternalScratch c config
  let config := config ++ chrs "\x7d"
  let config := writeDeviceType c config
  let config := writeScopedMemoryConfigs c config
  match writeFlagConfigs c config with
  | .ok buf =>
      .ok (buf ++ chrs ", \"implicit_sharding\": \x7b\"type\": \"MANUAL\"\x7d" ++ chrs "\x7d")
  | .error e => .error e

/-! ## Quoted-token analysis of the encoded payload

The payload grammar puts every JSON key between double quotes.  We scan a
byte string with a two-state machine that collects the maximal quote-free
runs standing between the 2k-1st and 2k-th quote characters — the "quoted
tokens" of the string.  A field's key *appears* in a payload when it is one
of its quoted tokens. -/

/-- Token scanner: `st = none` outside quotes, `st = some acc` inside a
quoted token with reversed accumulator `acc`.  Returns the tokens completed
and the state reached. -/
def runTok (st : Option (List Char)) : List Char → (List (List Char) × Option (List Char))
  | [] => ([], st)
  | c :: rest =>
    match st with
    | none => if c = '"' then runTok (some []) rest else runTok none rest
    | some acc =>
        if c = '"' then
          let r := runTok none rest
          (acc.reverse :: r.1, r.2)
        else runTok (some (c :: acc)) rest

/-- The quoted tokens of a byte string. -/
def tokensOf (s : List Char) : List (List Char) :=
  let r := runTok none s
  r.1 ++ (match r.2 with | none => [] | some acc => [acc.reverse])

/-- A byte string with no quote character. -/
def Clean (s : List Char) : Prop := '"' ∉ s

instance (s : List Char) : Decidable (Clean s) :=
  inferInstanceAs (Decidable ('"' ∉ s))

/-- A byte string whose quotes are balanced: scanning it from outside
quotes ends outside quotes. -/
def QuoteBalanced (s : List Char) : Prop := (runTok none s).2 = none

instance (s : List Char) : Decidable (QuoteBalanced s) :=
  inferInstanceAs (Decidable ((runTok none s).2 = none))

/-- A building block of the encoded payload: a literal template, a raw
(quote-free) variable part, or a variable part wrapped in quotes. -/
inductive JPiece where
  | lit (cs : List Char)
  | raw (cs : List Char)
  | quoted (cs : List Char)
deriving DecidableEq, Repr

/-- The bytes a piece renders to. -/
def JPiece.render : JPiece → List Char
  | .lit cs => cs
  | .raw cs => cs
  | .quoted cs => '"' :: (cs ++ ['"'])

/-- Rendering a piece list. -/
def renderPieces (ps : List JPiece) : List Char := (ps.map JPiece.render).flatten

/-- The quoted tokens a piece contributes. -/
def JPiece.toks : JPiece → List (List Char)
  | .lit cs => tokensOf cs
  | .raw _ => []
  | .quoted cs => [cs]

/-- Well-formedness of a piece: literals are balanced, variable parts are
quote-free. -/
def JPiece.Ok : JPiece → Prop
  | .lit cs => QuoteBalanced cs
  | .raw cs => Clean cs
  | .quoted cs => Clean cs

/-- Declarative form of the `allow_input_fusion` list body. -/
def fusionBody : List Bool → List Char
  | [] => []
  | b :: rest =>
      (if b then chrs "true" else chrs "false") ++
        (if rest = [] then [] else chrs ",") ++ fusionBody rest

/-- Declarative pieces of one flag entry's value. -/
def flagValuePieces : FlagValue → List JPiece
  | .boolean b => [.lit (chrs "\"boolean_value\": "), .raw (if b then chrs "true" else chrs "false")]
  | .integer i => [.lit (chrs "\"integer_value\": "), .raw (intChars i)]
  | .double render => [.lit (chrs "\"double_value\": "), .raw render]
  | .other _ => []

/-- Declarative pieces of one `flag_configs` entry. -/
def flagEntryPieces (e : List Char × FlagValue) : List JPiece :=
  [.lit (chrs "\x7b\"flag_type\": "), .quoted e.1, .lit (chrs ", value: \x7b")] ++
    flagValuePieces e.2 ++ [.lit (chrs "\x7d\x7d")]

/-- Declarative pieces of the `flag_configs` list body: entries in mapping
order, comma-separated. -/
def flagsBodyPieces : List (List Char × FlagValue) → List JPiece
  | [] => []
  | e :: rest =>
      flagEntryPieces e ++ (if rest = [] then [] else [.lit (chrs ",")]) ++ flagsBodyPieces rest

/-- The first flag value of invalid type, if any (its rendering is what the
raised `ValueError` carries). -/
def firstBadFlag : List (List Char × FlagValue) → Option (List Char)
  | [] => none
  | (_, .other render) :: _ => some render
  | _ :: rest => firstBadFlag rest

/-- The first invalid flag value of a config, if any. -/
def cfgFirstBad (c : CustomCallBackendConfig) : Option (List Char) :=
  match c.flags with
  | none => none
  | some fs => firstBadFlag fs

/-- Declarative pieces of the body segment. -/
def bodyPieces (c : CustomCallBackendConfig) : List JPiece :=
  [.lit (chrs "\x7b\"custom_call_config\": \x7b\"body\": "),
   .quoted (base64 c.lowered_module_asm)]

/-- Declarative pieces of the `has_communication` segment. -/
def hasCommPieces (c : CustomCallBackendConfig) : List JPiece :=
  if c.has_communication then [.lit (chrs ", \"has_communication\": true")] else []

/-- Declarative pieces of the `collective_id` segment. -/
def collectiveIdPieces (c : CustomCallBackendConfig) : List JPiece :=
  match c.collective_id with
  | none => []
  | some n => [.lit (chrs ", \"collective_id\": "), .raw (intChars n)]

/-- Declarative pieces of the `cost_estimate` segment. -/
def costEstimatePieces (c : CustomCallBackendConfig) : List JPiece :=
  match c.cost_estimate with
  | none => []
  | some ce =>
      [.lit (chrs ", \"cost_estimate\": \x7b\"flops\": "), .raw (intChars ce.flops),
       .lit (chrs ", \"transcendentals\": "), .raw (intChars ce.transcendentals),
       .lit (chrs ", \"bytes_accessed\": "), .raw (intChars ce.bytes_accessed), .lit (chrs "\x7d")]

/-- Declarative pieces of the `needs_hlo_passes` segment. -/
def needsHloPieces (c : CustomCallBackendConfig) : List JPiece :=
  if c.needs_hlo_passes then [.lit (chrs ", \"needs_hlo_passes\": true")] else []

/-- Declarative pieces of the `serialization_format` segment. -/
def serializationFormatPieces (c : CustomCallBackendConfig) : List JPiece :=
  match c.serialization_format with
  | none => []
  | some n => [.lit (chrs ", \"serialization_format\": "), .raw (intChars n)]

/-- Declarative pieces of the `needs_layout_passes` segment. -/
def needsLayoutPieces (c : CustomCallBackendConfig) : List JPiece :=
  if c.needs_layout_passes then [.lit (chrs ", \"needs_layout_passes\": true")] else []

/-- Declarative pieces of the `allow_input_fusion` segment. -/
def fusionPieces (c : CustomCallBackendConfig) : List JPiece :=
  match c.allow_input_fusion with
  | none => []
  | some l => [.lit (chrs ", \"allow_input_fusion\": ["), .raw (fusionBody l), .lit (chrs "]")]

/-- Declarative pieces of the `internal_scratch_in_bytes` segment. -/
def internalScratchPieces (c : CustomCallBackendConfig) : List JPiece :=
  match c.internal_scratch_in_bytes with
  | none => []
  | some n => [.lit (chrs ", \"internal_scratch_in_bytes\": "), .raw (intChars n)]

/-- Declarative pieces of the `device_type` segment. -/
def deviceTypePieces (c : CustomCallBackendConfig) : List JPiece :=
  match c.device_type with
  | none => []
  | some dt =>
      [.lit (chrs ", \"device_type\": "), .quoted (chrs "DEVICE_TYPE_" ++ dt.map asciiUpper)]

/-- Declarative pieces of the `scoped_memory_configs` segment. -/
def scopedMemoryPieces (c : CustomCallBackendConfig) : List JPiece :=
  match c.vmem_limit_bytes with
  | none => []
  | some n =>
      [.lit (chrs ", \"scoped_memory_configs\": [\x7b\"memory_space\":1, \"offset\": 0, \"size\": "),
       .raw (intChars n), .lit (chrs "\x7d]")]

/-- Declarative pieces of the `flag_configs` segment. -/
def flagConfigsPieces (c : CustomCallBackendConfig) : List JPiece :=
  match c.flags with
  | none => []
  | some fs => [.lit (chrs ", \"flag_configs\": [")] ++ flagsBodyPieces fs ++ [.lit (chrs "]")]

/-- Declarative pieces of the whole payload, in emission order. -/
def pieces (c : CustomCallBackendConfig) : List JPiece :=
  bodyPieces c ++ hasCommPieces c ++ collectiveIdPieces c ++ costEstimatePieces c ++
  needsHloPieces c ++ serializationFormatPieces c ++ needsLayoutPieces c ++
  fusionPieces c ++ internalScratchPieces c ++ [.lit (chrs "\x7d")] ++
  deviceTypePieces c ++ scopedMemoryPieces c ++ flagConfigsPieces c ++
  [.lit (chrs ", \"implicit_sharding\": \x7b\"type\": \"MANUAL\"\x7d"), .lit (chrs "\x7d")]

/-- Declarative closed form of the successfully encoded payload. -/
def jsonChars (c : CustomCallBackendConfig) : List Char := renderPieces (pieces c)

/-- The JSON keys the encoder can emit for optional/conditional fields. -/
def reservedKeys : List (List Char) :=
  [chrs "has_communication", chrs "collective_id", chrs "cost_estimate",
   chrs "needs_hlo_passes", chrs "serialization_format", chrs "needs_layout_passes",
   chrs "allow_input_fusion", chrs "internal_scratch_in_bytes", chrs "device_type",
   chrs "scoped_memory_configs", chrs "flag_configs"]

/-- A flag entry is tame when its name is quote-free and is not one of the
payload's own key names, and a float value's rendering is quote-free. -/
def tameFlag (e : List Char × FlagValue) : Bool :=
  !(e.1.contains '"') && !(reservedKeys.contains e.1) &&
    (match e.2 with | .double render => !(render.contains '"') | _ => true)

/-- A config is tame when its device-type tag (upper-cased) and its flag
entries introduce no stray quotes and no flag shadows a payload key name. -/
def tameB (c : CustomCallBackendConfig) : Bool :=
  (match c.device_type with
   | none => true
   | some dt => !((dt.map asciiUpper).contains '"')) &&
  (match c.flags with
   | none => true
   | some fs => fs.all tameFlag)

/-- Tameness of a config, as a proposition. -/
def Tame (c : CustomCallBackendConfig) : Prop := tameB c = true

instance (c : CustomCallBackendConfig) : Decidable (Tame c) :=
  inferInstanceAs (Decidable (tameB c = true))

/-- `key` appears (as a quoted JSON key/token) in `payload`. -/
def keyAppears (key : String) (payload : List Char) : Prop :=
  key.data ∈ tokensOf payload

instance (key : String) (payload : List Char) : Decidable (keyAppears key payload) :=
  inferInstanceAs (Decidable (key.data ∈ tokensOf payload))

/-- The key token each flag value kind contributes. -/
def flagValueToks : FlagValue → List (List Char)
  | .boolean _ => [chrs "boolean_value"]
  | .integer _ => [chrs "integer_value"]
  | .double _ => [chrs "double_value"]
  | .other _ => []

/-- The quoted tokens of the `flag_configs` body, in order. -/
def flagToks : List (List Char × FlagValue) → List (List Char)
  | [] => []
  | (name, v) :: rest => chrs "flag_type" :: name :: (flagValueToks v ++ flagToks rest)

/-- The key tokens an optional field contributes (its keys when present). -/
def optToks {α : Type} (o : Option α) (l : List (List Char)) : List (List Char) :=
  match o with | none => [] | some _ => l

/-- The key tokens the `device_type` field contributes. -/
def devToks (o : Option (List Char)) : List (List Char) :=
  match o with
  | none => []
  | some dt => [chrs "device_type", chrs "DEVICE_TYPE_" ++ dt.map asciiUpper]

/-- The key tokens the `flags` field contributes. -/
def flagsSegToks (o : Option (List (List Char × FlagValue))) : List (List Char) :=
  match o with | none => [] | some fs => chrs "flag_configs" :: flagToks fs

/-- The quoted tokens of the whole payload, in order. -/
def tokListOf (c : CustomCallBackendConfig) : List (List Char) :=
  [chrs "custom_call_config", chrs "body", base64 c.lowered_module_asm] ++
  (if c.has_communication then [chrs "has_communication"] else []) ++
  optToks c.collective_id [chrs "collective_id"] ++
  optToks c.cost_estimate [chrs "cost_estimate", chrs "flops", chrs "transcendentals",
    chrs "bytes_accessed"] ++
  (if c.needs_hlo_passes then [chrs "needs_hlo_passes"] else []) ++
  optToks c.serialization_format [chrs "serialization_format"] ++
  (if c.needs_layout_passes then [chrs "needs_layout_passes"] else []) ++
  optToks c.allow_input_fusion [chrs "allow_input_fusion"] ++
  optToks c.internal_scratch_in_bytes [chrs "internal_scratch_in_bytes"] ++
  devToks c.device_type ++
  optToks c.vmem_limit_bytes [chrs "scoped_memory_configs", chrs "memory_space",
    chrs "offset", chrs "size"] ++
  flagsSegToks c.flags ++
  [chrs "implicit_sharding", chrs "type", chrs "MANUAL"]

/-- The declarative byte form of one `flag_configs` entry: the key `value`
is emitted *unquoted* (`, value: `), matching the source's
`b'", value: \x7b'` write. -/
def flagEntryChars (e : List Char × FlagValue) : List Char :=
  chrs "\x7b\"flag_type\": \"" ++ e.1 ++ chrs "\", value: \x7b" ++
  (match e.2 with
   | .boolean b => chrs "\"boolean_value\": " ++ (if b then chrs "true" else chrs "false")
   | .integer i => chrs "\"integer_value\": " ++ intChars i
   | .double render => chrs "\"double_value\": " ++ render
   | .other _ => []) ++ chrs "\x7d\x7d"

/-- Everything the encoder emits before the `flag_configs` segment. -/
def jsonPrefixChars (c : CustomCallBackendConfig) : List Char :=
  renderPieces (bodyPieces c ++ hasCommPieces c ++ collectiveIdPieces c ++
    costEstimatePieces c ++ needsHloPieces c ++ serializationFormatPieces c ++
    needsLayoutPieces c ++ fusionPieces c ++ internalScratchPieces c ++
    [.lit (chrs "\x7d")] ++ deviceTypePieces c ++ scopedMemoryPieces c)

/-- Everything the encoder emits after the `flag_configs` segment. -/
def jsonSuffixChars : List Char :=
  chrs ", \"implicit_sharding\": \x7b\"type\": \"MANUAL\"\x7d" ++ chrs "\x7d"

/-!  ## Config construction (`_lowered_to_custom_call_config`) -/

/-- `_lowered_to_custom_call_config` from the source: validates the
collective-id/custom-barrier invariant, then constructs the config value.
(The source's `isinstance(vmem_limit_bytes, int)` check cannot fire in this
typed model, where `vmem_limit_bytes` is an optional integer.) -/
def lowered_to_custom_call_config (lowered_module_asm : List Nat)
    (vmem_limit_bytes : Option Int) (cost_estimate : Option CostEstimate)
    (flags : Option (List (List Char × FlagValue)))
    (allow_input_fusion : Option (List Bool))
    (internal_scratch_in_bytes : Option Int) (collective_id : Option Int)
    (serialization_format : Option Int) (has_custom_barrier : Bool)
    (has_communication : Bool) (needs_hlo_passes : Bool)
    (needs_layout_passes : Bool) (device_type : Option (List Char)) :
    Except (List Char) CustomCallBackendConfig :=
  if has_custom_barrier then
    if collective_id = none then
      .error (chrs "collective_id has to be specified when using a custom barrier")
    else
      .ok ⟨lowered_module_asm, has_communication, collective_id, device_type,
        cost_estimate, needs_hlo_passes, needs_layout_passes, vmem_limit_bytes,
        flags, allow_input_fusion, serialization_format, internal_scratch_in_bytes⟩
  else if collective_id ≠ none then
    .error (chrs "collective_id has to be unspecified or None when not using a custom barrier")
  else
    .ok ⟨lowered_module_asm, has_communication, collective_id, device_type,
      cost_estimate, needs_hlo_passes, needs_layout_passes, vmem_limit_bytes,
      flags, allow_input_fusion, serialization_format, internal_scratch_in_bytes⟩

/-! ## Partitioning validation (`_tpu_custom_call_lowering`) -/

/-- The module execution context's axis context, as inspected by the call
emitter: an SPMD context with a manual-axes scope and the mesh's axis
names, a sharding context with a device count, or anything else. -/
inductive AxisContext where
  | spmdAxisContext (manual_axes : List (List Char)) (mesh_axis_names : List (List Char))
  | shardingContext (num_devices : Nat)
  | replicaContext
deriving DecidableEq, Repr

/-- Python `frozenset(xs) == frozenset(ys)`. -/
def sameSet (xs ys : List (List Char)) : Bool :=
  xs.all (ys.contains ·) && ys.all (xs.contains ·)

/-- The partitioning validation prefix of `_tpu_custom_call_lowering`
(lines 199-215): SPMD contexts require the manual axes to equal the mesh's
axis-name set; sharding contexts require exactly one device; any other
context rejects kernels with communication. -/
def partitioningCheck (axis_context : AxisContext) (has_communication : Bool) :
    Except (List Char) Unit :=
  match axis_context with
  | .spmdAxisContext manual_axes mesh_axis_names =>
      if sameSet manual_axes mesh_axis_names then .ok ()
      else .error (chrs "Mosaic kernels cannot be automatically partitioned. Please wrap the call in a shard_map.")
  | .shardingContext num_devices =>
      if num_devices = 1 then .ok ()
      else .error (chrs "Mosaic kernels cannot be automatically partitioned. Please wrap the call in a shard_map.")
  | .replicaContext =>
      if has_communication then
        .error (chrs "Replica lowering for Mosaic kernels not implemented.")
      else .ok ()

/-! ## The lowering pipeline (`_lower_tpu_kernel`) -/

/-- Errors the lowering path can raise.  `unrecognizedChecks` carries the
set of unrecognized category tokens (the source joins them into the
message in unspecified set-iteration order). -/
inductive LowerError where
  | verificationFailed
  | unrecognizedChecks (cats : List (List Char))
  | unrecognizedDeviceKind (kind : List Char)
  | intParseFailure
  | indexOutOfRange
deriving DecidableEq, Repr

/-- Python truthiness of an optional string (`None` and `""` are falsy). -/
def pyTruthy : Option (List Char) → Bool
  | none => false
  | some s => !s.isEmpty

/-- Python `str.split(",")`. -/
def splitComma : List Char → List (List Char)
  | [] => [[]]
  | c :: rest =>
      if c = ',' then [] :: splitComma rest
      else
        match splitComma rest with
        | [] => [[c]]
        | h :: t => (c :: h) :: t

/-- The on-device-checks block of `_lower_tpu_kernel` (lines 306-323):
returns whether the assertion-insertion stage runs.  The Python `set` of
tokens is modelled by deduplication; `set.discard("bounds")` by `erase`. -/
def onDeviceChecksResult (on_device_checks : Option (List Char)) :
    Except LowerError Bool :=
  if pyTruthy on_device_checks then
    let checks := (splitComma (on_device_checks.getD [])).dedup
    if checks = [chrs "bounds"] then .ok true
    else if checks ≠ [] then .error (.unrecognizedChecks (checks.erase (chrs "bounds")))
    else .ok false
  else .ok false

/-- `mxu_size = 128 if hardware_generation < 6 else 256` (line 341). -/
def mxuSize (hardware_generation : Nat) : Nat :=
  if hardware_generation < 6 then 128 else 256

/-- The hlo→linalg→vector conversion pipeline (lines 279-284). -/
def hloConversionPipeline : List Char :=
  chrs "builtin.module(hlo-legalize-to-arithmetic,func.func(hlo-legalize-to-linalg),func.func(linalg-vectorization))"

/-- The memref-layout inference pipeline (lines 291-294). -/
def inferMemrefLayoutPipeline (hardware_generation : Nat) : List Char :=
  chrs "builtin.module(func.func(tpu-infer-memref-layout\x7bhardware-generation=" ++
    natChars hardware_generation ++ chrs "\x7d))"

/-- The canonicalize + cse pipeline (lines 298-302 and 354-358). -/
def simplifyPipeline : List Char := chrs "builtin.module(canonicalize,cse)"

/-- The assertion insertion pipeline (lines 314-316). -/
def assertInsertionPipeline : List Char :=
  chrs "builtin.module(func.func(debug-assert-insertion))"

/-- The Mosaic canonicalization pipeline (lines 325-328). -/
def canonicalizeMosaicPipeline : List Char :=
  chrs "builtin.module(func.func(tpu-canonicalize-mosaic\x7b\x7d))"

/-- The vector-layout inference pipeline (lines 332-335). -/
def inferVectorLayoutPipeline : List Char :=
  chrs "builtin.module(func.func(tpu-infer-vector-layout\x7bsublane-count=8 lane-count=128\x7d))"

/-- The vector-layout application pipeline (lines 339-350). -/
def applyVectorLayoutPipeline (hardware_generation : Nat) : List Char :=
  let sl_cnt := 8
  let l_cnt := 128
  let mxu_size := mxuSize hardware_generation
  chrs "builtin.module(func.func(tpu-apply-vector-layout\x7b sublane-count=" ++
    natChars sl_cnt ++ chrs " lane-count=" ++ natChars l_cnt ++
    chrs " hardware-generation=" ++ natChars hardware_generation ++
    chrs " mxu-contracting-size=" ++ natChars mxu_size ++
    chrs " mxu-noncontracting-size=" ++ natChars mxu_size ++
    chrs " max-sublanes-in-scratch=" ++ natChars (sl_cnt * (sl_cnt + 1)) ++
    chrs "\x7d))"

/-- `_lower_tpu_kernel` from the source, abstracted to the ordered list of
pass-pipeline strings it hands to `PassManager.parse`/`run` (the passes
themselves are external collaborators).  Fails fast when the module does
not verify, and fails on unrecognized on-device check categories. -/
def lowerTpuKernelPipelines (module_verifies : Bool) (allow_hlo : Bool)
    (on_device_checks : Option (List Char)) (hardware_generation : Nat) :
    Except LowerError (List (List Char)) :=
  if !module_verifies then .error .verificationFailed
  else
    match onDeviceChecksResult on_device_checks with
    | .error e => .error e
    | .ok runAsserts =>
        .ok ((if allow_hlo then [hloConversionPipeline] else []) ++
          [inferMemrefLayoutPipeline hardware_generation, simplifyPipeline] ++
          (if runAsserts then [assertInsertionPipeline] else []) ++
          [canonicalizeMosaicPipeline, inferVectorLayoutPipeline,
           applyVectorLayoutPipeline hardware_generation, simplifyPipeline])

/-! ## The lowering decision (`_lower_mosaic_module_to_asm`) -/

/-- Device-kind parsing from `_lower_mosaic_module_to_asm` (lines 383-389):
require the `"TPU v"` prefix, then take `int(device_kind[5])` — Python
`int` of the single character right after the prefix, which succeeds
exactly on a decimal digit. -/
def parseDeviceGeneration (device_kind : List Char) : Except LowerError Nat :=
  if (chrs "TPU v").isPrefixOf device_kind then
    match device_kind.drop 5 with
    | [] => .error .indexOutOfRange
    | ch :: _ => if ch.isDigit then .ok (ch.toNat - 48) else .error .intParseFailure
  else .error (.unrecognizedDeviceKind device_kind)

/-- The global flag and device context `_lower_mosaic_module_to_asm` reads,
together with the module analysis results (`tpu.private_has_communication`)
and whether the module passes MLIR verification. -/
structure LoweringEnv where
  allow_hlo : Bool
  use_python_pipeline : Bool
  device_kind : List Char
  module_verifies : Bool
  on_device_checks : Option (List Char)
  has_communication : Bool
  has_custom_barrier : Bool
deriving DecidableEq, Repr

/-- `_lower_mosaic_module_to_asm` from the source, abstracted to its
decision outcome: the first component is `some g` when the module was
eagerly lowered by the Python pipeline under hardware generation `g`
(`none` when serialization happens on the unlowered module), and the
remaining components are
`(has_communication, has_custom_barrier, needs_hlo_passes,
needs_layout_passes)` as returned.  The module cloning and
`mosaic-serde` serialization steps are external collaborators. -/
def lower_mosaic_module_to_asm (env : LoweringEnv)
    (device_type : Option (List Char)) :
    Except LowerError (Option Nat × Bool × Bool × Bool × Bool) :=
  let needs_hlo_passes := env.allow_hlo
  let needs_layout_passes := !(pyTruthy device_type)
  if needs_layout_passes && env.use_python_pipeline then
    match parseDeviceGeneration env.device_kind with
    | .error e => .error e
    | .ok g =>
        match lowerTpuKernelPipelines env.module_verifies env.allow_hlo
            env.on_device_checks g with
        | .error e => .error e
        | .ok _ =>
            .ok (some g, env.has_communication, env.has_custom_barrier, false, false)
  else
    .ok (none, env.has_communication, env.has_custom_barrier,
      needs_hlo_passes, needs_layout_passes)

/-! ## Python equality of config values

The source's `CustomCallBackendConfig` is a `dataclass`, so Python `==`
compares fields with `==`: dict comparison ignores insertion order, and
`True == 1` across `bool`/`int`.  (Float values are compared here by their
renderings, which underapproximates Python float equality and is exact on
the non-float values used below.) -/

/-- Python `==` on flag values. -/
def pyFlagValueEq : FlagValue → FlagValue → Bool
  | .boolean a, .boolean b => a == b
  | .boolean a, .integer n => (if a then (1 : Int) else 0) == n
  | .integer n, .boolean a => n == (if a then (1 : Int) else 0)
  | .integer m, .integer n => m == n
  | .double r, .double s => r == s
  | .other r, .other s => r == s
  | _, _ => false

/-- Python `==` on flag dicts: equal key sets (keys are unique in a dict)
and equal values at every shared key. -/
def pyFlagsEq (xs ys : List (List Char × FlagValue)) : Prop :=
  (xs.map Prod.fst).Nodup ∧ (ys.map Prod.fst).Nodup ∧
  (∀ k ∈ xs.map Prod.fst, k ∈ ys.map Prod.fst) ∧
  (∀ k ∈ ys.map Prod.fst, k ∈ xs.map Prod.fst) ∧
  (∀ e ∈ xs, ∀ e2 ∈ ys, e.1 = e2.1 → pyFlagValueEq e.2 e2.2 = true)

instance (xs ys : List (List Char × FlagValue)) : Decidable (pyFlagsEq xs ys) := by
  unfold pyFlagsEq
  infer_instance

/-- Python `==` on optional flag dicts. -/
def pyFlagsOptEq : Option (List (List Char × FlagValue)) →
    Option (List (List Char × FlagValue)) → Prop
  | none, none => True
  | some xs, some ys => pyFlagsEq xs ys
  | _, _ => False

instance (a b : Option (List (List Char × FlagValue))) : Decidable (pyFlagsOptEq a b) :=
  match a, b with
  | none, none => .isTrue trivial
  | some xs, some ys => inferInstanceAs (Decidable (pyFlagsEq xs ys))
  | none, some _ => .isFalse fun h => h
  | some _, none => .isFalse fun h => h

/-- Python `==` on `CustomCallBackendConfig` values (dataclass field-wise
equality). -/
def pyConfigEq (c1 c2 : CustomCallBackendConfig) : Prop :=
  c1.lowered_module_asm = c2.lowered_module_asm ∧
  c1.has_communication = c2.has_communication ∧
  c1.collective_id = c2.collective_id ∧
  c1.device_type = c2.device_type ∧
  c1.cost_estimate = c2.cost_estimate ∧
  c1.needs_hlo_passes = c2.needs_hlo_passes ∧
  c1.needs_layout_passes = c2.needs_layout_passes ∧
  c1.vmem_limit_bytes = c2.vmem_limit_bytes ∧
  pyFlagsOptEq c1.flags c2.flags ∧
  c1.allow_input_fusion = c2.allow_input_fusion ∧
  c1.serialization_format = c2.serialization_format ∧
  c1.internal_scratch_in_bytes = c2.internal_scratch_in_bytes

instance (c1 c2 : CustomCallBackendConfig) : Decidable (pyConfigEq c1 c2) := by
  unfold pyConfigEq
  infer_instance

/-! ## Lemmas: the token scanner -/

theorem runTok_append (st : Option (List Char)) (a b : List Char) :
    runTok st (a ++ b) =
      ((runTok st a).1 ++ (runTok (runTok st a).2 b).1,
        (runTok (runTok st a).2 b).2) := by
  induction a generalizing st with
  | nil => simp [runTok]
  | cons c rest ih =>
    cases st with
    | none =>
      by_cases hc : c = '"' <;> simp [runTok, hc, ih]
    | some acc =>
      by_cases hc : c = '"' <;> simp [runTok, hc, ih]

theorem runTok_clean_none (s : List Char) (h : Clean s) : runTok none s = ([], none) := by
  induction s with
  | nil => simp [runTok]
  | cons c rest ih =>
    rw [Clean, List.mem_cons] at h
    push_neg at h
    have hc : ¬ c = '"' := fun hc => h.1 hc.symm
    simp [runTok, hc, ih h.2]

theorem runTok_clean_some (s : List Char) (h : Clean s) (acc : List Char) :
    runTok (some acc) s = ([], some (s.reverse ++ acc)) := by
  induction s generalizing acc with
  | nil => simp [runTok]
  | cons c rest ih =>
    rw [Clean, List.mem_cons] at h
    push_neg at h
    have hc : ¬ c = '"' := fun hc => h.1 hc.symm
    simp [runTok, hc, ih h.2]

theorem quoteBalanced_clean (s : List Char) (h : Clean s) : QuoteBalanced s := by
  simp [QuoteBalanced, runTok_clean_none s h]

theorem tokensOf_clean (s : List Char) (h : Clean s) : tokensOf s = [] := by
  simp [tokensOf, runTok_clean_none s h]

theorem tokensOf_append (a b : List Char) (ha : QuoteBalanced a) :
    tokensOf (a ++ b) = tokensOf a ++ tokensOf b := by
  rw [QuoteBalanced] at ha
  simp [tokensOf, runTok_append, ha]

theorem quoteBalanced_append (a b : List Char) (ha : QuoteBalanced a)
    (hb : QuoteBalanced b) : QuoteBalanced (a ++ b) := by
  rw [QuoteBalanced] at ha hb ⊢
  simp [runTok_append, ha, hb]

theorem runTok_quoted (cs : List Char) (h : Clean cs) :
    runTok none ('"' :: (cs ++ ['"'])) = ([cs], none) := by
  have h1 : runTok (some []) (cs ++ ['"']) = ([cs], none) := by
    rw [runTok_append, runTok_clean_some cs h]
    simp [runTok]
  simp [runTok, h1]

theorem quoteBalanced_quoted (cs : List Char) (h : Clean cs) :
    QuoteBalanced ('"' :: (cs ++ ['"'])) := by
  simp [QuoteBalanced, runTok_quoted cs h]

theorem tokensOf_quoted (cs : List Char) (h : Clean cs) :
    tokensOf ('"' :: (cs ++ ['"'])) = [cs] := by
  simp [tokensOf, runTok_quoted cs h]

theorem piece_balanced_toks (p : JPiece) (h : p.Ok) :
    QuoteBalanced p.render ∧ tokensOf p.render = p.toks := by
  cases p with
  | lit s => exact ⟨h, rfl⟩
  | raw cs =>
      exact ⟨quoteBalanced_clean cs h,
        by simp [JPiece.toks, JPiece.render, tokensOf_clean cs h]⟩
  | quoted cs =>
      exact ⟨quoteBalanced_quoted cs h, by simp [JPiece.render, JPiece.toks, tokensOf_quoted cs h]⟩

theorem renderPieces_nil : renderPieces [] = [] := rfl

theorem renderPieces_cons (p : JPiece) (ps : List JPiece) :
    renderPieces (p :: ps) = p.render ++ renderPieces ps := by
  simp [renderPieces]

theorem renderPieces_append (xs ys : List JPiece) :
    renderPieces (xs ++ ys) = renderPieces xs ++ renderPieces ys := by
  simp [renderPieces]

theorem tokensOf_renderPieces (ps : List JPiece) (h : ∀ p ∈ ps, p.Ok) :
    tokensOf (renderPieces ps) = (ps.map JPiece.toks).flatten ∧
      QuoteBalanced (renderPieces ps) := by
  induction ps with
  | nil =>
    constructor
    · simp [renderPieces_nil, tokensOf, runTok]
    · simp [renderPieces_nil, QuoteBalanced, runTok]
  | cons p rest ih =>
    have hp := piece_balanced_toks p (h p (by simp))
    have hrest := ih (fun q hq => h q (by simp [hq]))
    rw [renderPieces_cons]
    constructor
    · rw [tokensOf_append _ _ hp.1, hp.2, hrest.1]
      simp
    · exact quoteBalanced_append _ _ hp.1 hrest.2

/-! ## Lemmas: the variable payload parts are quote-free -/

theorem digitChar_ne_quote (d : Nat) (h : d < 10) : digitChar d ≠ '"' := by
  interval_cases d <;> decide

theorem natCharsAux_clean (fuel n : Nat) : Clean (natCharsAux fuel n) := by
  induction fuel generalizing n with
  | zero => simp [natCharsAux, Clean]
  | succ f ih =>
    by_cases h : n < 10
    · simp [natCharsAux, h, Clean]
      exact fun hq => digitChar_ne_quote n h hq.symm
    · rw [natCharsAux]
      simp only [h, if_false, Clean, List.mem_append, List.mem_singleton]
      push_neg
      exact ⟨ih (n / 10), fun hq =>
        digitChar_ne_quote (n % 10) (Nat.mod_lt _ (by norm_num)) hq.symm⟩

theorem natChars_clean (n : Nat) : Clean (natChars n) := natCharsAux_clean _ _

theorem intChars_clean (i : Int) : Clean (intChars i) := by
  cases i with
  | ofNat n => exact natChars_clean n
  | negSucc n =>
    simp only [intChars, Clean, List.mem_cons]
    push_neg
    exact ⟨by decide, natChars_clean (n + 1)⟩

theorem pyBool_clean (b : Bool) : Clean (pyBool b) := by
  cases b <;> decide

theorem b64char_mem (n : Nat) : b64char n ∈ b64Alphabet := by
  unfold b64char
  rcases Nat.lt_or_ge n b64Alphabet.length with h | h
  · rw [List.getD_eq_getElem _ _ h]
    exact List.getElem_mem _
  · rw [List.getD_eq_default _ _ h]
    decide

theorem b64char_ne_quote (n : Nat) : b64char n ≠ '"' := by
  have h := b64char_mem n
  intro hq
  rw [hq] at h
  revert h
  decide

theorem base64_clean (bs : List Nat) : Clean (base64 bs) := by
  induction bs using base64.induct with
  | case1 => simp [base64, Clean]
  | case2 b1 =>
    simp only [base64, Clean, List.mem_cons]
    push_neg
    refine ⟨fun h => b64char_ne_quote _ h.symm, fun h => b64char_ne_quote _ h.symm,
      by decide, by decide, by simp⟩
  | case3 b1 b2 =>
    simp only [base64, Clean, List.mem_cons]
    push_neg
    refine ⟨fun h => b64char_ne_quote _ h.symm, fun h => b64char_ne_quote _ h.symm,
      fun h => b64char_ne_quote _ h.symm, by decide, by simp⟩
  | case4 b1 b2 b3 rest ih =>
    simp only [base64, Clean, List.mem_append, List.mem_cons]
    push_neg
    refine ⟨⟨fun h => b64char_ne_quote _ h.symm, fun h => b64char_ne_quote _ h.symm,
      fun h => b64char_ne_quote _ h.symm, fun h => b64char_ne_quote _ h.symm, by simp⟩, ih⟩

theorem base64_mem (bs : List Nat) (ch : Char) (h : ch ∈ base64 bs) :
    ch ∈ b64Alphabet ∨ ch = '=' := by
  induction bs using base64.induct with
  | case1 => simp [base64] at h
  | case2 b1 =>
    simp only [base64, List.mem_cons] at h
    rcases h with h | h | h | h | h
    all_goals first
      | (exact .inl (h ▸ b64char_mem _))
      | (exact .inr h)
      | (simp at h)
  | case3 b1 b2 =>
    simp only [base64, List.mem_cons] at h
    rcases h with h | h | h | h | h
    all_goals first
      | (exact .inl (h ▸ b64char_mem _))
      | (exact .inr h)
      | (simp at h)
  | case4 b1 b2 b3 rest ih =>
    simp only [base64, List.mem_append, List.mem_cons] at h
    rcases h with (h | h | h | h | h) | h
    all_goals first
      | (exact .inl (h ▸ b64char_mem _))
      | (exact .inr h)
      | (simp at h)
      | (exact ih h)

theorem base64_no_underscore (bs : List Nat) : '_' ∉ base64 bs := by
  intro h
  rcases base64_mem bs '_' h with h2 | h2
  · revert h2; decide
  · revert h2; decide

theorem fusionBody_clean (l : List Bool) : Clean (fusionBody l) := by
  induction l with
  | nil => simp [fusionBody, Clean]
  | cons b rest ih =>
    simp only [fusionBody, Clean, List.mem_append]
    push_neg
    refine ⟨⟨?_, ?_⟩, ih⟩
    · cases b <;> decide
    · by_cases h : rest = [] <;> simp [h] <;> decide

/-! ## Lemmas: the imperative writes equal the declarative pieces -/

theorem writeFusionLoop_eq (l : List Bool) : ∀ buf,
    writeFusionLoop buf l = buf ++ fusionBody l := by
  induction l with
  | nil => intro buf; simp [writeFusionLoop, fusionBody]
  | cons b rest ih =>
    intro buf
    rw [writeFusionLoop, fusionBody, ih]
    simp [List.append_assoc]

theorem flagEntry_render_boolean (flag : List Char) (b : Bool) :
    renderPieces (flagEntryPieces (flag, .boolean b)) =
      chrs "\x7b\"flag_type\": \"" ++ flag ++ chrs "\", value: \x7b" ++
        chrs "\"boolean_value\": " ++ (if b then chrs "true" else chrs "false") ++
        chrs "\x7d\x7d" := by
  simp [flagEntryPieces, flagValuePieces, renderPieces, JPiece.render, chrs,
    List.append_assoc]

theorem flagEntry_render_integer (flag : List Char) (i : Int) :
    renderPieces (flagEntryPieces (flag, .integer i)) =
      chrs "\x7b\"flag_type\": \"" ++ flag ++ chrs "\", value: \x7b" ++
        chrs "\"integer_value\": " ++ intChars i ++ chrs "\x7d\x7d" := by
  simp [flagEntryPieces, flagValuePieces, renderPieces, JPiece.render, chrs,
    List.append_assoc]

theorem flagEntry_render_double (flag render : List Char) :
    renderPieces (flagEntryPieces (flag, .double render)) =
      chrs "\x7b\"flag_type\": \"" ++ flag ++ chrs "\", value: \x7b" ++
        chrs "\"double_value\": " ++ render ++ chrs "\x7d\x7d" := by
  simp [flagEntryPieces, flagValuePieces, renderPieces, JPiece.render, chrs,
    List.append_assoc]

theorem writeFlagsLoop_ok (fs : List (List Char × FlagValue))
    (h : firstBadFlag fs = none) : ∀ buf,
    writeFlagsLoop buf fs = .ok (buf ++ renderPieces (flagsBodyPieces fs)) := by
  induction fs with
  | nil => intro buf; simp [writeFlagsLoop, flagsBodyPieces, renderPieces_nil]
  | cons e rest ih =>
    intro buf
    obtain ⟨flag, v⟩ := e
    cases v with
    | boolean b =>
      simp only [firstBadFlag] at h
      rw [writeFlagsLoop, ih h, flagsBodyPieces, renderPieces_append,
        renderPieces_append, flagEntry_render_boolean]
      by_cases hr : rest = [] <;>
        simp [hr, renderPieces_cons, renderPieces_nil, JPiece.render, chrs,
          List.append_assoc]
    | integer i =>
      simp only [firstBadFlag] at h
      rw [writeFlagsLoop, ih h, flagsBodyPieces, renderPieces_append,
        renderPieces_append, flagEntry_render_integer]
      by_cases hr : rest = [] <;>
        simp [hr, renderPieces_cons, renderPieces_nil, JPiece.render, chrs,
          List.append_assoc]
    | double render =>
      simp only [firstBadFlag] at h
      rw [writeFlagsLoop, ih h, flagsBodyPieces, renderPieces_append,
        renderPieces_append, flagEntry_render_double]
      by_cases hr : rest = [] <;>
        simp [hr, renderPieces_cons, renderPieces_nil, JPiece.render, chrs,
          List.append_assoc]
    | other render =>
      simp [firstBadFlag] at h

theorem writeFlagsLoop_err (fs : List (List Char × FlagValue)) (r : List Char)
    (h : firstBadFlag fs = some r) : ∀ buf,
    writeFlagsLoop buf fs = .error (chrs "invalid flag value: " ++ r) := by
  induction fs with
  | nil => intro buf; simp [firstBadFlag] at h
  | cons e rest ih =>
    intro buf
    obtain ⟨flag, v⟩ := e
    cases v with
    | boolean b =>
      simp only [firstBadFlag] at h
      rw [writeFlagsLoop, ih h]
    | integer i =>
      simp only [firstBadFlag] at h
      rw [writeFlagsLoop, ih h]
    | double render =>
      simp only [firstBadFlag] at h
      rw [writeFlagsLoop, ih h]
    | other render =>
      simp only [firstBadFlag, Option.some.injEq] at h
      rw [writeFlagsLoop, h]

theorem writeHasCommunication_eq (c : CustomCallBackendConfig) (buf : List Char) :
    writeHasCommunication c buf = buf ++ renderPieces (hasCommPieces c) := by
  cases hb : c.has_communication <;>
    simp [writeHasCommunication, hasCommPieces, hb, renderPieces, JPiece.render, chrs, pyBool,
      List.append_assoc]

theorem writeCollectiveId_eq (c : CustomCallBackendConfig) (buf : List Char) :
    writeCollectiveId c buf = buf ++ renderPieces (collectiveIdPieces c) := by
  cases hb : c.collective_id <;>
    simp [writeCollectiveId, collectiveIdPieces, hb, renderPieces, JPiece.render, chrs,
      List.append_assoc]

theorem writeCostEstimate_eq (c : CustomCallBackendConfig) (buf : List Char) :
    writeCostEstimate c buf = buf ++ renderPieces (costEstimatePieces c) := by
  cases hb : c.cost_estimate <;>
    simp [writeCostEstimate, costEstimatePieces, hb, renderPieces, JPiece.render,
      CostEstimate.to_json, chrs, List.append_assoc]

theorem writeNeedsHloPasses_eq (c : CustomCallBackendConfig) (buf : List Char) :
    writeNeedsHloPasses c buf = buf ++ renderPieces (needsHloPieces c) := by
  cases hb : c.needs_hlo_passes <;>
    simp [writeNeedsHloPasses, needsHloPieces, hb, renderPieces, JPiece.render, chrs, pyBool,
      List.append_assoc]

theorem writeSerializationFormat_eq (c : CustomCallBackendConfig) (buf : List Char) :
    writeSerializationFormat c buf = buf ++ renderPieces (serializationFormatPieces c) := by
  cases hb : c.serialization_format <;>
    simp [writeSerializationFormat, serializationFormatPieces, hb, renderPieces,
      JPiece.render, chrs, List.append_assoc]

theorem writeNeedsLayoutPasses_eq (c : CustomCallBackendConfig) (buf : List Char) :
    writeNeedsLayoutPasses c buf = buf ++ renderPieces (needsLayoutPieces c) := by
  cases hb : c.needs_layout_passes <;>
    simp [writeNeedsLayoutPasses, needsLayoutPieces, hb, renderPieces, JPiece.render, chrs, pyBool,
      List.append_assoc]

theorem writeAllowInputFusion_eq (c : CustomCallBackendConfig) (buf : List Char) :
    writeAllowInputFusion c buf = buf ++ renderPieces (fusionPieces c) := by
  cases hb : c.allow_input_fusion with
  | none => simp [writeAllowInputFusion, fusionPieces, hb, renderPieces]
  | some l =>
    rw [writeAllowInputFusion, hb]
    dsimp only
    rw [writeFusionLoop_eq]
    simp [fusionPieces, hb, renderPieces, JPiece.render, chrs, List.append_assoc]

theorem writeInternalScratch_eq (c : CustomCallBackendConfig) (buf : List Char) :
    writeInternalScratch c buf = buf ++ renderPieces (internalScratchPieces c) := by
  cases hb : c.internal_scratch_in_bytes <;>
    simp [writeInternalScratch, internalScratchPieces, hb, renderPieces, JPiece.render, chrs,
      List.append_assoc]

theorem writeDeviceType_eq (c : CustomCallBackendConfig) (buf : List Char) :
    writeDeviceType c buf = buf ++ renderPieces (deviceTypePieces c) := by
  cases hb : c.device_type <;>
    simp [writeDeviceType, deviceTypePieces, hb, renderPieces, JPiece.render, chrs,
      List.append_assoc]

theorem writeScopedMemoryConfigs_eq (c : CustomCallBackendConfig) (buf : List Char) :
    writeScopedMemoryConfigs c buf = buf ++ renderPieces (scopedMemoryPieces c) := by
  cases hb : c.vmem_limit_bytes <;>
    simp [writeScopedMemoryConfigs, scopedMemoryPieces, hb, renderPieces, JPiece.render, chrs,
      List.append_assoc]

theorem writeFlagConfigs_ok (c : CustomCallBackendConfig) (buf : List Char)
    (h : cfgFirstBad c = none) :
    writeFlagConfigs c buf = .ok (buf ++ renderPieces (flagConfigsPieces c)) := by
  cases hb : c.flags with
  | none => simp [writeFlagConfigs, flagConfigsPieces, hb, renderPieces]
  | some fs =>
    rw [cfgFirstBad, hb] at h
    dsimp only at h
    rw [writeFlagConfigs, hb]
    dsimp only
    rw [writeFlagsLoop_ok fs h]
    simp [flagConfigsPieces, hb, renderPieces_append, renderPieces_cons, renderPieces_nil,
      JPiece.render, chrs, List.append_assoc]

theorem writeFlagConfigs_err (c : CustomCallBackendConfig) (buf r : List Char)
    (h : cfgFirstBad c = some r) :
    writeFlagConfigs c buf = .error (chrs "invalid flag value: " ++ r) := by
  cases hb : c.flags with
  | none => rw [cfgFirstBad, hb] at h; simp at h
  | some fs =>
    rw [cfgFirstBad, hb] at h
    dsimp only at h
    rw [writeFlagConfigs, hb]
    dsimp only
    rw [writeFlagsLoop_err fs r h]

theorem to_json_ok (c : CustomCallBackendConfig) (h : cfgFirstBad c = none) :
    c.to_json = .ok (jsonChars c) := by
  rw [CustomCallBackendConfig.to_json]
  rw [writeHasCommunication_eq, writeCollectiveId_eq, writeCostEstimate_eq,
    writeNeedsHloPasses_eq, writeSerializationFormat_eq, writeNeedsLayoutPasses_eq,
    writeAllowInputFusion_eq, writeInternalScratch_eq, writeDeviceType_eq,
    writeScopedMemoryConfigs_eq, writeFlagConfigs_ok c _ h]
  rw [jsonChars, pieces]
  simp [renderPieces_append, renderPieces_cons, renderPieces_nil, JPiece.render, bodyPieces,
    List.append_assoc, chrs]

theorem to_json_err (c : CustomCallBackendConfig) (r : List Char)
    (h : cfgFirstBad c = some r) :
    c.to_json = .error (chrs "invalid flag value: " ++ r) := by
  rw [CustomCallBackendConfig.to_json]
  rw [writeHasCommunication_eq, writeCollectiveId_eq, writeCostEstimate_eq,
    writeNeedsHloPasses_eq, writeSerializationFormat_eq, writeNeedsLayoutPasses_eq,
    writeAllowInputFusion_eq, writeInternalScratch_eq, writeDeviceType_eq,
    writeScopedMemoryConfigs_eq, writeFlagConfigs_err c _ r h]

/-! ## Lemmas: the payload's quoted tokens -/

theorem flagValuePieces_ok (name : List Char) (v : FlagValue)
    (he : tameFlag (name, v) = true) : ∀ p ∈ flagValuePieces v, p.Ok := by
  simp only [tameFlag, Bool.and_eq_true] at he
  intro p hp
  cases v with
  | boolean b =>
    simp only [flagValuePieces, List.mem_cons, List.not_mem_nil, or_false] at hp
    rcases hp with rfl | rfl
    · exact (by decide : QuoteBalanced (chrs "\"boolean_value\": "))
    · simp only [JPiece.Ok]
      cases b <;> decide
  | integer i =>
    simp only [flagValuePieces, List.mem_cons, List.not_mem_nil, or_false] at hp
    rcases hp with rfl | rfl
    · exact (by decide : QuoteBalanced (chrs "\"integer_value\": "))
    · exact intChars_clean i
  | double render =>
    simp only [flagValuePieces, List.mem_cons, List.not_mem_nil, or_false] at hp
    rcases hp with rfl | rfl
    · exact (by decide : QuoteBalanced (chrs "\"double_value\": "))
    · have h2 : render.contains '"' = false := by simpa using he.2
      simp only [JPiece.Ok]
      simp at h2
      exact h2
  | other render => simp [flagValuePieces] at hp

theorem flagEntryPieces_ok (e : List Char × FlagValue)
    (he : tameFlag e = true) : ∀ p ∈ flagEntryPieces e, p.Ok := by
  obtain ⟨name, v⟩ := e
  intro p hp
  simp only [flagEntryPieces, List.mem_append, List.mem_cons, List.not_mem_nil,
    or_false] at hp
  rcases hp with ((rfl | rfl | rfl) | hp) | rfl
  · exact (by decide : QuoteBalanced (chrs "\x7b\"flag_type\": "))
  · have h1 : name.contains '"' = false := by
      have h3 := he
      simp only [tameFlag, Bool.and_eq_true] at h3
      simpa using h3.1.1
    simp only [JPiece.Ok]
    simp at h1
    exact h1
  · exact (by decide : QuoteBalanced (chrs ", value: \x7b"))
  · exact flagValuePieces_ok name v he p hp
  · exact (by decide : QuoteBalanced (chrs "\x7d\x7d"))

theorem flagsBodyPieces_ok (fs : List (List Char × FlagValue))
    (hf : ∀ e ∈ fs, tameFlag e = true) : ∀ p ∈ flagsBodyPieces fs, p.Ok := by
  induction fs with
  | nil => simp [flagsBodyPieces]
  | cons e rest ih =>
    intro p hp
    simp only [flagsBodyPieces, List.mem_append] at hp
    rcases hp with (hp | hp) | hp
    · exact flagEntryPieces_ok e (hf e (by simp)) p hp
    · by_cases hr : rest = []
      · simp [hr] at hp
      · simp only [hr, if_false, List.mem_singleton] at hp
        subst hp
        exact (by decide : QuoteBalanced (chrs ","))
    · exact ih (fun e2 h2 => hf e2 (by simp [h2])) p hp

theorem pieces_ok (c : CustomCallBackendConfig) (ht : Tame c) :
    ∀ p ∈ pieces c, p.Ok := by
  rw [Tame, tameB, Bool.and_eq_true] at ht
  intro p hp
  simp only [pieces, List.mem_append, List.mem_cons, List.not_mem_nil, or_false,
    List.mem_singleton] at hp
  rcases hp with ((((((((((((hp | hp) | hp) | hp) | hp) | hp) | hp) | hp) | hp) | rfl) | hp) | hp) | hp) | rfl | rfl
  · simp only [bodyPieces, List.mem_cons, List.not_mem_nil, or_false] at hp
    rcases hp with rfl | rfl
    · exact (by decide : QuoteBalanced (chrs "\x7b\"custom_call_config\": \x7b\"body\": "))
    · exact base64_clean _
  · rw [hasCommPieces] at hp
    rcases hb : c.has_communication <;> rw [hb] at hp
    · simp at hp
    · simp only [if_true, List.mem_cons, List.not_mem_nil, or_false] at hp
      subst hp
      exact (by decide : QuoteBalanced (chrs ", \"has_communication\": true"))
  · rw [collectiveIdPieces] at hp
    rcases hb : c.collective_id with _ | n <;> rw [hb] at hp
    · simp at hp
    · simp only [List.mem_cons, List.not_mem_nil, or_false] at hp
      rcases hp with rfl | rfl
      · exact (by decide : QuoteBalanced (chrs ", \"collective_id\": "))
      · exact intChars_clean _
  · rw [costEstimatePieces] at hp
    rcases hb : c.cost_estimate with _ | ce <;> rw [hb] at hp
    · simp at hp
    · simp only [List.mem_cons, List.not_mem_nil, or_false] at hp
      rcases hp with rfl | rfl | rfl | rfl | rfl | rfl | rfl
      · exact (by decide : QuoteBalanced (chrs ", \"cost_estimate\": \x7b\"flops\": "))
      · exact intChars_clean _
      · exact (by decide : QuoteBalanced (chrs ", \"transcendentals\": "))
      · exact intChars_clean _
      · exact (by decide : QuoteBalanced (chrs ", \"bytes_accessed\": "))
      · exact intChars_clean _
      · exact (by decide : QuoteBalanced (chrs "\x7d"))
  · rw [needsHloPieces] at hp
    rcases hb : c.needs_hlo_passes <;> rw [hb] at hp
    · simp at hp
    · simp only [if_true, List.mem_cons, List.not_mem_nil, or_false] at hp
      subst hp
      exact (by decide : QuoteBalanced (chrs ", \"needs_hlo_passes\": true"))
  · rw [serializationFormatPieces] at hp
    rcases hb : c.serialization_format with _ | n <;> rw [hb] at hp
    · simp at hp
    · simp only [List.mem_cons, List.not_mem_nil, or_false] at hp
      rcases hp with rfl | rfl
      · exact (by decide : QuoteBalanced (chrs ", \"serialization_format\": "))
      · exact intChars_clean _
  · rw [needsLayoutPieces] at hp
    rcases hb : c.needs_layout_passes <;> rw [hb] at hp
    · simp at hp
    · simp only [if_true, List.mem_cons, List.not_mem_nil, or_false] at hp
      subst hp
      exact (by decide : QuoteBalanced (chrs ", \"needs_layout_passes\": true"))
  · rw [fusionPieces] at hp
    rcases hb : c.allow_input_fusion with _ | l <;> rw [hb] at hp
    · simp at hp
    · simp only [List.mem_cons, List.not_mem_nil, or_false] at hp
      rcases hp with rfl | rfl | rfl
      · exact (by decide : QuoteBalanced (chrs ", \"allow_input_fusion\": ["))
      · exact fusionBody_clean _
      · exact (by decide : QuoteBalanced (chrs "]"))
  · rw [internalScratchPieces] at hp
    rcases hb : c.internal_scratch_in_bytes with _ | n <;> rw [hb] at hp
    · simp at hp
    · simp only [List.mem_cons, List.not_mem_nil, or_false] at hp
      rcases hp with rfl | rfl
      · exact (by decide : QuoteBalanced (chrs ", \"internal_scratch_in_bytes\": "))
      · exact intChars_clean _
  · exact (by decide : QuoteBalanced (chrs "\x7d"))
  · rw [deviceTypePieces] at hp
    rcases hb : c.device_type with _ | dt <;> rw [hb] at hp
    · simp at hp
    · simp only [List.mem_cons, List.not_mem_nil, or_false] at hp
      rcases hp with rfl | rfl
      · exact (by decide : QuoteBalanced (chrs ", \"device_type\": "))
      · have h1 := ht.1
        rw [hb] at h1
        have h2 : '"' ∉ List.map asciiUpper dt := by simpa using h1
        simp only [JPiece.Ok, Clean, List.mem_append]
        push_neg
        exact ⟨by decide, h2⟩
  · rw [scopedMemoryPieces] at hp
    rcases hb : c.vmem_limit_bytes with _ | n <;> rw [hb] at hp
    · simp at hp
    · simp only [List.mem_cons, List.not_mem_nil, or_false] at hp
      rcases hp with rfl | rfl | rfl
      · exact (by decide : QuoteBalanced
          (chrs ", \"scoped_memory_configs\": [\x7b\"memory_space\":1, \"offset\": 0, \"size\": "))
      · exact intChars_clean _
      · exact (by decide : QuoteBalanced (chrs "\x7d]"))
  · rw [flagConfigsPieces] at hp
    rcases hb : c.flags with _ | fs <;> rw [hb] at hp
    · simp at hp
    · have h2 := ht.2
      rw [hb] at h2
      simp only [List.all_eq_true] at h2
      simp only [List.mem_append, List.mem_cons, List.not_mem_nil, or_false,
        List.mem_singleton] at hp
      rcases hp with (rfl | hp) | rfl
      · exact (by decide : QuoteBalanced (chrs ", \"flag_configs\": ["))
      · exact flagsBodyPieces_ok fs h2 p hp
      · exact (by decide : QuoteBalanced (chrs "]"))
  · exact (by decide : QuoteBalanced (chrs ", \"implicit_sharding\": \x7b\"type\": \"MANUAL\"\x7d"))
  · exact (by decide : QuoteBalanced (chrs "\x7d"))

theorem toks_body (c : CustomCallBackendConfig) :
    ((bodyPieces c).map JPiece.toks).flatten =
      [chrs "custom_call_config", chrs "body", base64 c.lowered_module_asm] := by
  simp only [bodyPieces, List.map_cons, List.map_nil, JPiece.toks, List.flatten_cons,
    List.flatten_nil, List.append_nil]
  rw [show tokensOf (chrs "\x7b\"custom_call_config\": \x7b\"body\": ") =
    [chrs "custom_call_config", chrs "body"] from by decide]
  simp

theorem toks_hasComm (c : CustomCallBackendConfig) :
    ((hasCommPieces c).map JPiece.toks).flatten =
      (if c.has_communication then [chrs "has_communication"] else []) := by
  cases hb : c.has_communication <;> simp only [hasCommPieces, hb] <;> decide

theorem toks_collectiveId (c : CustomCallBackendConfig) :
    ((collectiveIdPieces c).map JPiece.toks).flatten =
      optToks c.collective_id [chrs "collective_id"] := by
  cases hb : c.collective_id <;> simp only [collectiveIdPieces, optToks, hb, List.map_cons,
    List.map_nil, JPiece.toks, List.flatten_cons, List.flatten_nil, List.append_nil] <;>
    decide

theorem toks_costEstimate (c : CustomCallBackendConfig) :
    ((costEstimatePieces c).map JPiece.toks).flatten =
      optToks c.cost_estimate [chrs "cost_estimate", chrs "flops", chrs "transcendentals",
        chrs "bytes_accessed"] := by
  cases hb : c.cost_estimate <;> simp only [costEstimatePieces, optToks, hb, List.map_cons,
    List.map_nil, JPiece.toks, List.flatten_cons, List.flatten_nil, List.append_nil] <;>
    decide

theorem toks_needsHlo (c : CustomCallBackendConfig) :
    ((needsHloPieces c).map JPiece.toks).flatten =
      (if c.needs_hlo_passes then [chrs "needs_hlo_passes"] else []) := by
  cases hb : c.needs_hlo_passes <;> simp only [needsHloPieces, hb] <;> decide

theorem toks_serializationFormat (c : CustomCallBackendConfig) :
    ((serializationFormatPieces c).map JPiece.toks).flatten =
      optToks c.serialization_format [chrs "serialization_format"] := by
  cases hb : c.serialization_format <;> simp only [serializationFormatPieces, optToks, hb,
    List.map_cons, List.map_nil, JPiece.toks, List.flatten_cons, List.flatten_nil,
    List.append_nil] <;> decide

theorem toks_needsLayout (c : CustomCallBackendConfig) :
    ((needsLayoutPieces c).map JPiece.toks).flatten =
      (if c.needs_layout_passes then [chrs "needs_layout_passes"] else []) := by
  cases hb : c.needs_layout_passes <;> simp only [needsLayoutPieces, hb] <;> decide

theorem toks_fusion (c : CustomCallBackendConfig) :
    ((fusionPieces c).map JPiece.toks).flatten =
      optToks c.allow_input_fusion [chrs "allow_input_fusion"] := by
  cases hb : c.allow_input_fusion <;> simp only [fusionPieces, optToks, hb, List.map_cons,
    List.map_nil, JPiece.toks, List.flatten_cons, List.flatten_nil, List.append_nil] <;>
    decide

theorem toks_internalScratch (c : CustomCallBackendConfig) :
    ((internalScratchPieces c).map JPiece.toks).flatten =
      optToks c.internal_scratch_in_bytes [chrs "internal_scratch_in_bytes"] := by
  cases hb : c.internal_scratch_in_bytes <;> simp only [internalScratchPieces, optToks, hb,
    List.map_cons, List.map_nil, JPiece.toks, List.flatten_cons, List.flatten_nil,
    List.append_nil] <;> decide

theorem toks_deviceType (c : CustomCallBackendConfig) :
    ((deviceTypePieces c).map JPiece.toks).flatten = devToks c.device_type := by
  cases hb : c.device_type with
  | none => simp [deviceTypePieces, devToks, hb]
  | some dt =>
    simp only [deviceTypePieces, devToks, hb, List.map_cons, List.map_nil, JPiece.toks,
      List.flatten_cons, List.flatten_nil, List.append_nil]
    rw [show tokensOf (chrs ", \"device_type\": ") = [chrs "device_type"] from by decide]
    simp

theorem toks_scopedMemory (c : CustomCallBackendConfig) :
    ((scopedMemoryPieces c).map JPiece.toks).flatten =
      optToks c.vmem_limit_bytes [chrs "scoped_memory_configs", chrs "memory_space",
        chrs "offset", chrs "size"] := by
  cases hb : c.vmem_limit_bytes <;> simp only [scopedMemoryPieces, optToks, hb, List.map_cons,
    List.map_nil, JPiece.toks, List.flatten_cons, List.flatten_nil, List.append_nil] <;>
    decide

theorem toks_flagValue (v : FlagValue) :
    ((flagValuePieces v).map JPiece.toks).flatten = flagValueToks v := by
  cases v <;> simp only [flagValuePieces, flagValueToks, List.map_cons, List.map_nil,
    JPiece.toks, List.flatten_cons, List.flatten_nil, List.append_nil] <;> decide

theorem toks_flagEntry (e : List Char × FlagValue) :
    ((flagEntryPieces e).map JPiece.toks).flatten =
      chrs "flag_type" :: e.1 :: flagValueToks e.2 := by
  obtain ⟨name, v⟩ := e
  simp only [flagEntryPieces, List.map_append, List.map_cons, List.map_nil,
    List.flatten_append, List.flatten_cons, List.flatten_nil, JPiece.toks, List.append_nil]
  rw [show tokensOf (chrs "\x7b\"flag_type\": ") = [chrs "flag_type"] from by decide,
    show tokensOf (chrs ", value: \x7b") = ([] : List (List Char)) from by decide,
    show tokensOf (chrs "\x7d\x7d") = ([] : List (List Char)) from by decide]
  simp [toks_flagValue]

theorem toks_flagsBody (fs : List (List Char × FlagValue)) :
    ((flagsBodyPieces fs).map JPiece.toks).flatten = flagToks fs := by
  induction fs with
  | nil => simp [flagsBodyPieces, flagToks]
  | cons e rest ih =>
    obtain ⟨name, v⟩ := e
    simp only [flagsBodyPieces, List.map_append, List.flatten_append, toks_flagEntry, ih,
      flagToks]
    by_cases hr : rest = [] <;>
      simp [hr, JPiece.toks, List.append_assoc] <;> decide

theorem toks_flagConfigs (c : CustomCallBackendConfig) :
    ((flagConfigsPieces c).map JPiece.toks).flatten = flagsSegToks c.flags := by
  cases hb : c.flags with
  | none => simp [flagConfigsPieces, flagsSegToks, hb]
  | some fs =>
    simp only [flagConfigsPieces, flagsSegToks, hb, List.map_append, List.map_cons,
      List.map_nil, List.flatten_append, List.flatten_cons, List.flatten_nil, JPiece.toks,
      List.append_nil, toks_flagsBody]
    rw [show tokensOf (chrs ", \"flag_configs\": [") = [chrs "flag_configs"] from by decide,
      show tokensOf (chrs "]") = ([] : List (List Char)) from by decide]
    simp

theorem tokensOf_jsonChars (c : CustomCallBackendConfig) (ht : Tame c) :
    tokensOf (jsonChars c) = tokListOf c := by
  rw [jsonChars, (tokensOf_renderPieces (pieces c) (pieces_ok c ht)).1, pieces]
  simp only [List.map_append, List.flatten_append]
  rw [toks_body, toks_hasComm, toks_collectiveId, toks_costEstimate, toks_needsHlo,
    toks_serializationFormat, toks_needsLayout, toks_fusion, toks_internalScratch,
    toks_deviceType, toks_scopedMemory, toks_flagConfigs]
  rw [tokListOf]
  simp only [List.map_cons, List.map_nil, JPiece.toks, List.flatten_cons, List.flatten_nil,
    List.append_nil]
  rw [show tokensOf (chrs "\x7d") = ([] : List (List Char)) from by decide,
    show tokensOf (chrs ", \"implicit_sharding\": \x7b\"type\": \"MANUAL\"\x7d") =
      [chrs "implicit_sharding", chrs "type", chrs "MANUAL"] from by decide]
  simp [List.append_assoc]

/-! ## Lemmas: which keys appear in the payload -/

theorem mem_ite_seg (b : Prop) [Decidable b] (k : List Char) (l : List (List Char)) :
    (k ∈ if b then l else []) ↔ (b ∧ k ∈ l) := by
  by_cases h : b <;> simp [h]

theorem mem_optToks {α : Type} (o : Option α) (k : List Char) (l : List (List Char)) :
    (k ∈ optToks o l) ↔ (o.isSome ∧ k ∈ l) := by
  cases o <;> simp [optToks]

theorem mem_devToks (o : Option (List Char)) (k : List Char) :
    (k ∈ devToks o) ↔
      (∃ dt, o = some dt ∧
        (k = chrs "device_type" ∨ k = chrs "DEVICE_TYPE_" ++ dt.map asciiUpper)) := by
  cases o <;> simp [devToks]

theorem mem_flagsSegToks (o : Option (List (List Char × FlagValue))) (k : List Char) :
    (k ∈ flagsSegToks o) ↔
      (∃ fs, o = some fs ∧ (k = chrs "flag_configs" ∨ k ∈ flagToks fs)) := by
  cases o with
  | none =>
    simp only [flagsSegToks, List.not_mem_nil, false_iff]
    rintro ⟨fs, h, _⟩
    exact Option.noConfusion h
  | some fs =>
    simp only [flagsSegToks, List.mem_cons]
    constructor
    · rintro (rfl | h)
      · exact ⟨fs, rfl, .inl rfl⟩
      · exact ⟨fs, rfl, .inr h⟩
    · rintro ⟨fs2, heq, h⟩
      injection heq with heq
      subst heq
      rcases h with rfl | h
      · exact .inl rfl
      · exact .inr h

theorem base64_ne_underscore_key (bs : List Nat) (k : List Char) (hu : '_' ∈ k) :
    ¬ (k = base64 bs) := fun h => base64_no_underscore bs (h ▸ hu)

theorem device_token_ne (u k : List Char) (hk : k.head? ≠ some 'D') :
    ¬ (k = chrs "DEVICE_TYPE_" ++ u) := by
  intro h
  apply hk
  rw [h]
  rfl

theorem flagToks_mem (fs : List (List Char × FlagValue)) (k : List Char)
    (hk : k ∈ flagToks fs) :
    k = chrs "flag_type" ∨ (∃ e ∈ fs, k = e.1) ∨ k = chrs "boolean_value" ∨
      k = chrs "integer_value" ∨ k = chrs "double_value" := by
  induction fs with
  | nil => simp [flagToks] at hk
  | cons e rest ih =>
    obtain ⟨name, v⟩ := e
    simp only [flagToks, List.mem_cons, List.mem_append] at hk
    rcases hk with rfl | rfl | hk | hk
    · exact .inl rfl
    · exact .inr (.inl ⟨(k, v), by simp⟩)
    · cases v <;> simp only [flagValueToks, List.mem_cons, List.not_mem_nil, or_false] at hk
      all_goals tauto
    · rcases ih hk with h | ⟨e2, he2, rfl⟩ | h | h | h
      · exact .inl h
      · exact .inr (.inl ⟨e2, by simp [he2]⟩)
      · exact .inr (.inr (.inl h))
      · exact .inr (.inr (.inr (.inl h)))
      · exact .inr (.inr (.inr (.inr h)))

theorem flagToks_no_reserved (fs : List (List Char × FlagValue))
    (hf : ∀ e ∈ fs, tameFlag e = true) (k : List Char) (hk : k ∈ reservedKeys)
    (h1 : k ≠ chrs "flag_type") (h2 : k ≠ chrs "boolean_value")
    (h3 : k ≠ chrs "integer_value") (h4 : k ≠ chrs "double_value") :
    k ∉ flagToks fs := by
  intro hm
  rcases flagToks_mem fs k hm with h | ⟨e, he, rfl⟩ | h | h | h
  · exact h1 h
  · have := hf e he
    simp only [tameFlag, Bool.and_eq_true] at this
    have hres : e.1 ∉ reservedKeys := by simpa using this.1.2
    exact hres hk
  · exact h2 h
  · exact h3 h
  · exact h4 h

set_option maxHeartbeats 2000000 in
theorem key_presence (c : CustomCallBackendConfig) (ht : Tame c) :
    (keyAppears "has_communication" (jsonChars c) ↔ c.has_communication = true) ∧
    (keyAppears "collective_id" (jsonChars c) ↔ c.collective_id.isSome = true) ∧
    (keyAppears "cost_estimate" (jsonChars c) ↔ c.cost_estimate.isSome = true) ∧
    (keyAppears "needs_hlo_passes" (jsonChars c) ↔ c.needs_hlo_passes = true) ∧
    (keyAppears "serialization_format" (jsonChars c) ↔ c.serialization_format.isSome = true) ∧
    (keyAppears "needs_layout_passes" (jsonChars c) ↔ c.needs_layout_passes = true) ∧
    (keyAppears "allow_input_fusion" (jsonChars c) ↔ c.allow_input_fusion.isSome = true) ∧
    (keyAppears "internal_scratch_in_bytes" (jsonChars c) ↔ c.internal_scratch_in_bytes.isSome = true) ∧
    (keyAppears "device_type" (jsonChars c) ↔ c.device_type.isSome = true) ∧
    (keyAppears "scoped_memory_configs" (jsonChars c) ↔ c.vmem_limit_bytes.isSome = true) ∧
    (keyAppears "flag_configs" (jsonChars c) ↔ c.flags.isSome = true) := by
  have htok := tokensOf_jsonChars c ht
  have hf : ∀ fs, c.flags = some fs → ∀ e ∈ fs, tameFlag e = true := by
    intro fs hfs
    have h2 := ht
    rw [Tame, tameB, Bool.and_eq_true] at h2
    have h3 := h2.2
    rw [hfs] at h3
    simpa using h3
  refine ⟨?_, ?_, ?_, ?_, ?_, ?_, ?_, ?_, ?_, ?_, ?_⟩
  · rw [keyAppears, htok, tokListOf]
    have h1 : ¬(("has_communication".data : List Char) = base64 c.lowered_module_asm) :=
      base64_ne_underscore_key _ _ (by decide)
    have h2 : ∀ u, ¬(("has_communication".data : List Char) = chrs "DEVICE_TYPE_" ++ u) :=
      fun u => device_token_ne u _ (by decide)
    rcases hfs : c.flags with _ | fs
    · simp [List.mem_append, mem_ite_seg, mem_optToks, mem_devToks, mem_flagsSegToks,
        h1, h2, hfs, chrs, Option.isSome_iff_exists]
    · have h3 : ("has_communication".data : List Char) ∉ flagToks fs :=
        flagToks_no_reserved fs (hf fs hfs) _ (by decide) (by decide) (by decide)
          (by decide) (by decide)
      simp [List.mem_append, mem_ite_seg, mem_optToks, mem_devToks, mem_flagsSegToks,
        h1, h2, h3, hfs, chrs, Option.isSome_iff_exists]
  · rw [keyAppears, htok, tokListOf]
    have h1 : ¬(("collective_id".data : List Char) = base64 c.lowered_module_asm) :=
      base64_ne_underscore_key _ _ (by decide)
    have h2 : ∀ u, ¬(("collective_id".data : List Char) = chrs "DEVICE_TYPE_" ++ u) :=
      fun u => device_token_ne u _ (by decide)
    rcases hfs : c.flags with _ | fs
    · simp [List.mem_append, mem_ite_seg, mem_optToks, mem_devToks, mem_flagsSegToks,
        h1, h2, hfs, chrs, Option.isSome_iff_exists]
    · have h3 : ("collective_id".data : List Char) ∉ flagToks fs :=
        flagToks_no_reserved fs (hf fs hfs) _ (by decide) (by decide) (by decide)
          (by decide) (by decide)
      simp [List.mem_append, mem_ite_seg, mem_optToks, mem_devToks, mem_flagsSegToks,
        h1, h2, h3, hfs, chrs, Option.isSome_iff_exists]
  · rw [keyAppears, htok, tokListOf]
    have h1 : ¬(("cost_estimate".data : List Char) = base64 c.lowered_module_asm) :=
      base64_ne_underscore_key _ _ (by decide)
    have h2 : ∀ u, ¬(("cost_estimate".data : List Char) = chrs "DEVICE_TYPE_" ++ u) :=
      fun u => device_token_ne u _ (by decide)
    rcases hfs : c.flags with _ | fs
    · simp [List.mem_append, mem_ite_seg, mem_optToks, mem_devToks, mem_flagsSegToks,
        h1, h2, hfs, chrs, Option.isSome_iff_exists]
    · have h3 : ("cost_estimate".data : List Char) ∉ flagToks fs :=
        flagToks_no_reserved fs (hf fs hfs) _ (by decide) (by decide) (by decide)
          (by decide) (by decide)
      simp [List.mem_append, mem_ite_seg, mem_optToks, mem_devToks, mem_flagsSegToks,
        h1, h2, h3, hfs, chrs, Option.isSome_iff_exists]
  · rw [keyAppears, htok, tokListOf]
    have h1 : ¬(("needs_hlo_passes".data : List Char) = base64 c.lowered_module_asm) :=
      base64_ne_underscore_key _ _ (by decide)
    have h2 : ∀ u, ¬(("needs_hlo_passes".data : List Char) = chrs "DEVICE_TYPE_" ++ u) :=
      fun u => device_token_ne u _ (by decide)
    rcases hfs : c.flags with _ | fs
    · simp [List.mem_append, mem_ite_seg, mem_optToks, mem_devToks, mem_flagsSegToks,
        h1, h2, hfs, chrs, Option.isSome_iff_exists]
    · have h3 : ("needs_hlo_passes".data : List Char) ∉ flagToks fs :=
        flagToks_no_reserved fs (hf fs hfs) _ (by decide) (by decide) (by decide)
          (by decide) (by decide)
      simp [List.mem_append, mem_ite_seg, mem_optToks, mem_devToks, mem_flagsSegToks,
        h1, h2, h3, hfs, chrs, Option.isSome_iff_exists]
  · rw [keyAppears, htok, tokListOf]
    have h1 : ¬(("serialization_format".data : List Char) = base64 c.lowered_module_asm) :=
      base64_ne_underscore_key _ _ (by decide)
    have h2 : ∀ u, ¬(("serialization_format".data : List Char) = chrs "DEVICE_TYPE_" ++ u) :=
      fun u => device_token_ne u _ (by decide)
    rcases hfs : c.flags with _ | fs
    · simp [List.mem_append, mem_ite_seg, mem_optToks, mem_devToks, mem_flagsSegToks,
        h1, h2, hfs, chrs, Option.isSome_iff_exists]
    · have h3 : ("serialization_format".data : List Char) ∉ flagToks fs :=
        flagToks_no_reserved fs (hf fs hfs) _ (by decide) (by decide) (by decide)
          (by decide) (by decide)
      simp [List.mem_append, mem_ite_seg, mem_optToks, mem_devToks, mem_flagsSegToks,
        h1, h2, h3, hfs, chrs, Option.isSome_iff_exists]
  · rw [keyAppears, htok, tokListOf]
    have h1 : ¬(("needs_layout_passes".data : List Char) = base64 c.lowered_module_asm) :=
      base64_ne_underscore_key _ _ (by decide)
    have h2 : ∀ u, ¬(("needs_layout_passes".data : List Char) = chrs "DEVICE_TYPE_" ++ u) :=
      fun u => device_token_ne u _ (by decide)
    rcases hfs : c.flags with _ | fs
    · simp [List.mem_append, mem_ite_seg, mem_optToks, mem_devToks, mem_flagsSegToks,
        h1, h2, hfs, chrs, Option.isSome_iff_exists]
    · have h3 : ("needs_layout_passes".data : List Char) ∉ flagToks fs :=
        flagToks_no_reserved fs (hf fs hfs) _ (by decide) (by decide) (by decide)
          (by decide) (by decide)
      simp [List.mem_append, mem_ite_seg, mem_optToks, mem_devToks, mem_flagsSegToks,
        h1, h2, h3, hfs, chrs, Option.isSome_iff_exists]
  · rw [keyAppears, htok, tokListOf]
    have h1 : ¬(("allow_input_fusion".data : List Char) = base64 c.lowered_module_asm) :=
      base64_ne_underscore_key _ _ (by decide)
    have h2 : ∀ u, ¬(("allow_input_fusion".data : List Char) = chrs "DEVICE_TYPE_" ++ u) :=
      fun u => device_token_ne u _ (by decide)
    rcases hfs : c.flags with _ | fs
    · simp [List.mem_append, mem_ite_seg, mem_optToks, mem_devToks, mem_flagsSegToks,
        h1, h2, hfs, chrs, Option.isSome_iff_exists]
    · have h3 : ("allow_input_fusion".data : List Char) ∉ flagToks fs :=
        flagToks_no_reserved fs (hf fs hfs) _ (by decide) (by decide) (by decide)
          (by decide) (by decide)
      simp [List.mem_append, mem_ite_seg, mem_optToks, mem_devToks, mem_flagsSegToks,
        h1, h2, h3, hfs, chrs, Option.isSome_iff_exists]
  · rw [keyAppears, htok, tokListOf]
    have h1 : ¬(("internal_scratch_in_bytes".data : List Char) = base64 c.lowered_module_asm) :=
      base64_ne_underscore_key _ _ (by decide)
    have h2 : ∀ u, ¬(("internal_scratch_in_bytes".data : List Char) = chrs "DEVICE_TYPE_" ++ u) :=
      fun u => device_token_ne u _ (by decide)
    rcases hfs : c.flags with _ | fs
    · simp [List.mem_append, mem_ite_seg, mem_optToks, mem_devToks, mem_flagsSegToks,
        h1, h2, hfs, chrs, Option.isSome_iff_exists]
    · have h3 : ("internal_scratch_in_bytes".data : List Char) ∉ flagToks fs :=
        flagToks_no_reserved fs (hf fs hfs) _ (by decide) (by decide) (by decide)
          (by decide) (by decide)
      simp [List.mem_append, mem_ite_seg, mem_optToks, mem_devToks, mem_flagsSegToks,
        h1, h2, h3, hfs, chrs, Option.isSome_iff_exists]
  · rw [keyAppears, htok, tokListOf]
    have h1 : ¬(("device_type".data : List Char) = base64 c.lowered_module_asm) :=
      base64_ne_underscore_key _ _ (by decide)
    have h2 : ∀ u, ¬(("device_type".data : List Char) = chrs "DEVICE_TYPE_" ++ u) :=
      fun u => device_token_ne u _ (by decide)
    rcases hfs : c.flags with _ | fs
    · simp [List.mem_append, mem_ite_seg, mem_optToks, mem_devToks, mem_flagsSegToks,
        h1, h2, hfs, chrs, Option.isSome_iff_exists]
    · have h3 : ("device_type".data : List Char) ∉ flagToks fs :=
        flagToks_no_reserved fs (hf fs hfs) _ (by decide) (by decide) (by decide)
          (by decide) (by decide)
      simp [List.mem_append, mem_ite_seg, mem_optToks, mem_devToks, mem_flagsSegToks,
        h1, h2, h3, hfs, chrs, Option.isSome_iff_exists]
  · rw [keyAppears, htok, tokListOf]
    have h1 : ¬(("scoped_memory_configs".data : List Char) = base64 c.lowered_module_asm) :=
      base64_ne_underscore_key _ _ (by decide)
    have h2 : ∀ u, ¬(("scoped_memory_configs".data : List Char) = chrs "DEVICE_TYPE_" ++ u) :=
      fun u => device_token_ne u _ (by decide)
    rcases hfs : c.flags with _ | fs
    · simp [List.mem_append, mem_ite_seg, mem_optToks, mem_devToks, mem_flagsSegToks,
        h1, h2, hfs, chrs, Option.isSome_iff_exists]
    · have h3 : ("scoped_memory_configs".data : List Char) ∉ flagToks fs :=
        flagToks_no_reserved fs (hf fs hfs) _ (by decide) (by decide) (by decide)
          (by decide) (by decide)
      simp [List.mem_append, mem_ite_seg, mem_optToks, mem_devToks, mem_flagsSegToks,
        h1, h2, h3, hfs, chrs, Option.isSome_iff_exists]
  · rw [keyAppears, htok, tokListOf]
    have h1 : ¬(("flag_configs".data : List Char) = base64 c.lowered_module_asm) :=
      base64_ne_underscore_key _ _ (by decide)
    have h2 : ∀ u, ¬(("flag_configs".data : List Char) = chrs "DEVICE_TYPE_" ++ u) :=
      fun u => device_token_ne u _ (by decide)
    rcases hfs : c.flags with _ | fs
    · simp [List.mem_append, mem_ite_seg, mem_optToks, mem_devToks, mem_flagsSegToks,
        h1, h2, hfs, chrs, Option.isSome_iff_exists]
    · have h3 : ("flag_configs".data : List Char) ∉ flagToks fs :=
        flagToks_no_reserved fs (hf fs hfs) _ (by decide) (by decide) (by decide)
          (by decide) (by decide)
      simp [List.mem_append, mem_ite_seg, mem_optToks, mem_devToks, mem_flagsSegToks,
        h1, h2, h3, hfs, chrs, Option.isSome_iff_exists]

/-! ## Lemmas: the flag_configs body in intercalated form -/

theorem flagEntry_render (e : List Char × FlagValue) :
    renderPieces (flagEntryPieces e) = flagEntryChars e := by
  obtain ⟨name, v⟩ := e
  cases v with
  | boolean b => rw [flagEntry_render_boolean]; simp [flagEntryChars, List.append_assoc]
  | integer i => rw [flagEntry_render_integer]; simp [flagEntryChars, List.append_assoc]
  | double render => rw [flagEntry_render_double]; simp [flagEntryChars, List.append_assoc]
  | other render =>
    simp [flagEntryPieces, flagValuePieces, flagEntryChars, renderPieces, JPiece.render,
      chrs, List.append_assoc]

theorem flagsBody_render_intercalate (fs : List (List Char × FlagValue)) :
    renderPieces (flagsBodyPieces fs) =
      List.intercalate (chrs ",") (fs.map flagEntryChars) := by
  induction fs with
  | nil => simp [flagsBodyPieces, renderPieces_nil, List.intercalate]
  | cons e rest ih =>
    cases rest with
    | nil =>
      simp only [flagsBodyPieces, List.map_cons, List.map_nil]
      rw [show List.intercalate (chrs ",") [flagEntryChars e] = flagEntryChars e by
        simp [List.intercalate]]
      simp [renderPieces_append, renderPieces_nil, flagEntry_render]
    | cons e2 rest2 =>
      simp only [flagsBodyPieces, List.map_cons] at ih ⊢
      rw [show List.intercalate (chrs ",")
          (flagEntryChars e :: flagEntryChars e2 :: List.map flagEntryChars rest2) =
          flagEntryChars e ++ chrs "," ++
            List.intercalate (chrs ",") (flagEntryChars e2 :: List.map flagEntryChars rest2) by
        simp [List.intercalate, List.intersperse]]
      rw [← ih]
      simp [renderPieces_append, renderPieces_cons, renderPieces_nil, JPiece.render,
        flagEntry_render, List.append_assoc]

theorem jsonChars_flag_split (c : CustomCallBackendConfig)
    (fs : List (List Char × FlagValue)) (hfs : c.flags = some fs) :
    jsonChars c = jsonPrefixChars c ++
      (chrs ", \"flag_configs\": [" ++
        List.intercalate (chrs ",") (fs.map flagEntryChars) ++ chrs "]") ++
      jsonSuffixChars := by
  rw [jsonChars, pieces, jsonPrefixChars, jsonSuffixChars]
  simp only [renderPieces_append, flagConfigsPieces, hfs, renderPieces_cons,
    renderPieces_nil, JPiece.render, flagsBody_render_intercalate, List.append_assoc,
    List.append_nil]


/-! ## Lemmas: every token occurs quoted in the byte payload -/

theorem runTok_token_quoted (s : List Char) :
    (∀ t ∈ (runTok none s).1, ('"' :: (t ++ ['"'])) <:+: s) ∧
    (∀ acc : List Char,
      (∀ t ∈ (runTok (some acc) s).1.tail, ('"' :: (t ++ ['"'])) <:+: s) ∧
      (∀ t0, (runTok (some acc) s).1.head? = some t0 →
        ∃ u, t0 = acc.reverse ++ u ∧ (u ++ ['"']) <+: s)) := by
  induction s with
  | nil =>
    constructor
    · simp [runTok]
    · intro acc
      constructor <;> simp [runTok]
  | cons c r ih =>
    by_cases hc : c = '"'
    · subst hc
      constructor
      · intro t ht
        simp only [runTok, if_true, eq_self_iff_true] at ht
        cases hh : (runTok (some []) r).1 with
        | nil => rw [hh] at ht; simp at ht
        | cons t0 ts =>
          rw [hh] at ht
          rcases List.mem_cons.mp ht with rfl | hmem
          · obtain ⟨u, hu, hpre⟩ := (ih.2 []).2 t (by rw [hh]; rfl)
            rw [hu]
            simp only [List.reverse_nil, List.nil_append]
            obtain ⟨w, hw⟩ := hpre
            have hp : ('"' :: (u ++ ['"'])) <+: '"' :: r := ⟨w, by rw [← hw]; simp⟩
            exact hp.isInfix
          · have h2 := (ih.2 []).1 t (by rw [hh]; exact hmem)
            exact h2.trans (List.suffix_cons _ r).isInfix
      · intro acc
        constructor
        · intro t ht
          simp only [runTok, if_true, eq_self_iff_true, List.tail_cons] at ht
          exact (ih.1 t ht).trans (List.suffix_cons _ r).isInfix
        · intro t0 h0
          simp only [runTok, if_true, eq_self_iff_true, List.head?_cons,
            Option.some.injEq] at h0
          exact ⟨[], by simp [h0.symm], ⟨r, by simp⟩⟩
    · constructor
      · intro t ht
        simp only [runTok, if_neg hc] at ht
        exact (ih.1 t ht).trans (List.suffix_cons _ r).isInfix
      · intro acc
        constructor
        · intro t ht
          simp only [runTok, if_neg hc] at ht
          exact ((ih.2 (c :: acc)).1 t ht).trans (List.suffix_cons _ r).isInfix
        · intro t0 h0
          simp only [runTok, if_neg hc] at h0
          obtain ⟨u, hu, hpre⟩ := (ih.2 (c :: acc)).2 t0 h0
          refine ⟨c :: u, ?_, ?_⟩
          · rw [hu]
            simp [List.append_assoc]
          · obtain ⟨w, hw⟩ := hpre
            exact ⟨w, by rw [← hw]; simp⟩

theorem tokensOf_token_quoted (s t : List Char) (hb : QuoteBalanced s)
    (ht : t ∈ tokensOf s) : ('"' :: (t ++ ['"'])) <:+: s := by
  rw [QuoteBalanced] at hb
  rw [tokensOf] at ht
  rw [hb] at ht
  simp only [List.append_nil] at ht
  exact (runTok_token_quoted s).1 t ht

theorem jsonChars_quoteBalanced (c : CustomCallBackendConfig) (ht : Tame c) :
    QuoteBalanced (jsonChars c) :=
  (tokensOf_renderPieces (pieces c) (pieces_ok c ht)).2

/-! ## Claims C1-C3: the Config Encoder -/

set_option maxRecDepth 20000 in
/-- C1, counterexample: at a config with the single boolean flag `f`, the
encoder emits the entry `{"flag_type": "f", value: {"boolean_value": true}}`
— the inner `value` key is *unquoted*, so the quoted byte sequence
`"value"` required by the claim's exact form occurs nowhere in the payload,
while the unquoted `, value: ` does. -/
theorem C1_counterexample :
    CustomCallBackendConfig.to_json
        ⟨[], false, none, none, none, false, false, none,
          some [(chrs "f", .boolean true)], none, none, none⟩ =
      .ok (chrs "\x7b\"custom_call_config\": \x7b\"body\": \"\"\x7d, \"flag_configs\": [\x7b\"flag_type\": \"f\", value: \x7b\"boolean_value\": true\x7d\x7d], \"implicit_sharding\": \x7b\"type\": \"MANUAL\"\x7d\x7d") ∧
    ¬ (chrs "\"value\"" <:+:
        chrs "\x7b\"custom_call_config\": \x7b\"body\": \"\"\x7d, \"flag_configs\": [\x7b\"flag_type\": \"f\", value: \x7b\"boolean_value\": true\x7d\x7d], \"implicit_sharding\": \x7b\"type\": \"MANUAL\"\x7d\x7d") ∧
    (chrs ", value: " <:+:
        chrs "\x7b\"custom_call_config\": \x7b\"body\": \"\"\x7d, \"flag_configs\": [\x7b\"flag_type\": \"f\", value: \x7b\"boolean_value\": true\x7d\x7d], \"implicit_sharding\": \x7b\"type\": \"MANUAL\"\x7d\x7d") := by
  decide

/-- C1 (amended): for every config whose flags mapping is present, the
encoder emits, inside a `flag_configs` list and in the mapping's order, one
entry per flag of the exact form
`{"flag_type": "<name>", value: {"<inner key>": <value>}}` — the inner
`value` key unquoted — where the inner key is `boolean_value` for a boolean
(a boolean is classified as boolean, never as integer), `integer_value` for
an integer and `double_value` for a float; encoding a flag whose value has
any other type raises the fatal `invalid flag value` error. -/
theorem C1_flag_configs_encoding (c : CustomCallBackendConfig)
    (fs : List (List Char × FlagValue)) (hfs : c.flags = some fs) :
    (firstBadFlag fs = none →
      c.to_json = .ok (jsonPrefixChars c ++
        (chrs ", \"flag_configs\": [" ++
          List.intercalate (chrs ",") (fs.map flagEntryChars) ++ chrs "]") ++
        jsonSuffixChars)) ∧
    (∀ r, firstBadFlag fs = some r →
      c.to_json = .error (chrs "invalid flag value: " ++ r)) := by
  constructor
  · intro hok
    have hcb : cfgFirstBad c = none := by simp [cfgFirstBad, hfs, hok]
    rw [to_json_ok c hcb, jsonChars_flag_split c fs hfs]
  · intro r hr
    have hcb : cfgFirstBad c = some r := by simp [cfgFirstBad, hfs, hr]
    exact to_json_err c r hcb

set_option maxRecDepth 20000 in
/-- C1 witness: the amended statement evaluated at a two-flag config. -/
theorem C1_flag_configs_encoding_witness :
    CustomCallBackendConfig.to_json
        ⟨[], false, none, none, none, false, false, none,
          some [(chrs "g", .integer 3), (chrs "h", .boolean false)], none, none, none⟩ =
      .ok (jsonPrefixChars
          ⟨[], false, none, none, none, false, false, none,
            some [(chrs "g", .integer 3), (chrs "h", .boolean false)], none, none, none⟩ ++
        (chrs ", \"flag_configs\": [" ++
          List.intercalate (chrs ",")
            ([(chrs "g", .integer 3), (chrs "h", .boolean false)].map flagEntryChars) ++
          chrs "]") ++
        jsonSuffixChars) :=
  (C1_flag_configs_encoding _ _ rfl).1 rfl

set_option maxRecDepth 20000 in
/-- C2, counterexample: at a config whose `has_communication` field is
`False` — a value that is present (not `None`) — the encoded payload does
not contain the key `has_communication`, refuting presence-iff-not-absent
for the boolean fields. -/
theorem C2_counterexample :
    CustomCallBackendConfig.to_json
        ⟨[], false, none, none, none, false, false, none, none, none, none, none⟩ =
      .ok (chrs "\x7b\"custom_call_config\": \x7b\"body\": \"\"\x7d, \"implicit_sharding\": \x7b\"type\": \"MANUAL\"\x7d\x7d") ∧
    ¬ keyAppears "has_communication"
        (chrs "\x7b\"custom_call_config\": \x7b\"body\": \"\"\x7d, \"implicit_sharding\": \x7b\"type\": \"MANUAL\"\x7d\x7d") := by
  decide

/-- C2 (amended): for every tame, well-typed config, each genuinely
optional field's key appears in the encoded payload iff its source value is
not absent (`None`) — in particular a present-but-empty flags mapping or
allow_input_fusion list still emits its key with an empty container — while
each of the three boolean fields' keys appears iff the field is `True`;
every appearing key occurs in the payload literally as the quoted byte
sequence `"<key>"`. -/
theorem C2_field_presence (c : CustomCallBackendConfig) (ht : Tame c)
    (hok : cfgFirstBad c = none) :
    c.to_json = .ok (jsonChars c) ∧
    (keyAppears "collective_id" (jsonChars c) ↔ c.collective_id.isSome = true) ∧
    (keyAppears "cost_estimate" (jsonChars c) ↔ c.cost_estimate.isSome = true) ∧
    (keyAppears "serialization_format" (jsonChars c) ↔
      c.serialization_format.isSome = true) ∧
    (keyAppears "allow_input_fusion" (jsonChars c) ↔ c.allow_input_fusion.isSome = true) ∧
    (keyAppears "internal_scratch_in_bytes" (jsonChars c) ↔
      c.internal_scratch_in_bytes.isSome = true) ∧
    (keyAppears "device_type" (jsonChars c) ↔ c.device_type.isSome = true) ∧
    (keyAppears "scoped_memory_configs" (jsonChars c) ↔ c.vmem_limit_bytes.isSome = true) ∧
    (keyAppears "flag_configs" (jsonChars c) ↔ c.flags.isSome = true) ∧
    (keyAppears "has_communication" (jsonChars c) ↔ c.has_communication = true) ∧
    (keyAppears "needs_hlo_passes" (jsonChars c) ↔ c.needs_hlo_passes = true) ∧
    (keyAppears "needs_layout_passes" (jsonChars c) ↔ c.needs_layout_passes = true) ∧
    (∀ key : String, keyAppears key (jsonChars c) →
      ('"' :: (key.data ++ ['"'])) <:+: jsonChars c) := by
  obtain ⟨h1, h2, h3, h4, h5, h6, h7, h8, h9, h10, h11⟩ := key_presence c ht
  exact ⟨to_json_ok c hok, h2, h3, h5, h7, h8, h9, h10, h11, h1, h4, h6,
    fun key hk => tokensOf_token_quoted _ _ (jsonChars_quoteBalanced c ht) hk⟩

set_option maxRecDepth 20000 in
/-- C2 witness: the amended statement evaluated at a config with an empty
flags mapping and device type `tc7`. -/
theorem C2_field_presence_witness :
    Tame ⟨[1, 2], true, none, some (chrs "tc7"), none, false, true, some 1048576,
        some [], some [], some 1, none⟩ ∧
    cfgFirstBad ⟨[1, 2], true, none, some (chrs "tc7"), none, false, true, some 1048576,
        some [], some [], some 1, none⟩ = none ∧
    CustomCallBackendConfig.to_json
        ⟨[1, 2], true, none, some (chrs "tc7"), none, false, true, some 1048576,
          some [], some [], some 1, none⟩ =
      .ok (jsonChars ⟨[1, 2], true, none, some (chrs "tc7"), none, false, true,
        some 1048576, some [], some [], some 1, none⟩) :=
  ⟨by decide, by decide, (C2_field_presence _ (by decide) (by decide)).1⟩

set_option maxRecDepth 20000 in
/-- C3, counterexample: two configs that are equal under Python `==` (the
dataclass equality, where `True == 1` makes the dicts `{"x": True}` and
`{"x": 1}` equal) encode to different byte payloads — one writes
`boolean_value`, the other `integer_value`. -/
theorem C3_counterexample :
    pyConfigEq
        ⟨[], false, none, none, none, false, false, none,
          some [(chrs "x", .boolean true)], none, none, none⟩
        ⟨[], false, none, none, none, false, false, none,
          some [(chrs "x", .integer 1)], none, none, none⟩ ∧
    CustomCallBackendConfig.to_json
        ⟨[], false, none, none, none, false, false, none,
          some [(chrs "x", .boolean true)], none, none, none⟩ ≠
      CustomCallBackendConfig.to_json
        ⟨[], false, none, none, none, false, false, none,
          some [(chrs "x", .integer 1)], none, none, none⟩ := by
  decide

/-- C3 (amended): the encoder is deterministic on structurally identical
configs: two configs that are identical values (same flag insertion order
and same value type tags, which Python `==` does not guarantee) produce
byte-identical output; in particular encoding the same value twice yields
identical bytes. -/
theorem C3_determinism (c1 c2 : CustomCallBackendConfig) (h : c1 = c2) :
    c1.to_json = c2.to_json := by
  rw [h]

/-- C3 witness: determinism evaluated at a concrete config. -/
theorem C3_determinism_witness :
    CustomCallBackendConfig.to_json
        ⟨[9], true, some 2, none, none, true, false, none, none, none, none, some 4⟩ =
      CustomCallBackendConfig.to_json
        ⟨[9], true, some 2, none, none, true, false, none, none, none, none, some 4⟩ :=
  C3_determinism _ _ rfl

/-! ## Claims C4-C10: construction, lowering, emission -/

theorem splitComma_ne_nil (s : List Char) : splitComma s ≠ [] := by
  cases s with
  | nil => simp [splitComma]
  | cons c rest =>
    by_cases h : c = ','
    · simp [splitComma, h]
    · cases hm : splitComma rest <;> simp [splitComma, h, hm]

/-- C4: config construction enforces the collective-id/custom-barrier
invariant in both directions, before any encoding: a custom barrier without
a collective id fails, a collective id without a custom barrier fails, and
both consistent combinations construct the config value. -/
theorem C4_collective_barrier_invariant :
    (∀ (asm : List Nat) (vmem : Option Int) (cost : Option CostEstimate)
        (flags : Option (List (List Char × FlagValue))) (fusion : Option (List Bool))
        (scratch : Option Int) (serial : Option Int) (comm hlo layout : Bool)
        (dt : Option (List Char)),
      lowered_to_custom_call_config asm vmem cost flags fusion scratch none serial
          true comm hlo layout dt =
        .error (chrs "collective_id has to be specified when using a custom barrier")) ∧
    (∀ (asm : List Nat) (vmem : Option Int) (cost : Option CostEstimate)
        (flags : Option (List (List Char × FlagValue))) (fusion : Option (List Bool))
        (scratch : Option Int) (n : Int) (serial : Option Int) (comm hlo layout : Bool)
        (dt : Option (List Char)),
      lowered_to_custom_call_config asm vmem cost flags fusion scratch (some n) serial
          false comm hlo layout dt =
        .error (chrs "collective_id has to be unspecified or None when not using a custom barrier")) ∧
    (∀ (asm : List Nat) (vmem : Option Int) (cost : Option CostEstimate)
        (flags : Option (List (List Char × FlagValue))) (fusion : Option (List Bool))
        (scratch : Option Int) (n : Int) (serial : Option Int) (comm hlo layout : Bool)
        (dt : Option (List Char)),
      lowered_to_custom_call_config asm vmem cost flags fusion scratch (some n) serial
          true comm hlo layout dt =
        .ok ⟨asm, comm, some n, dt, cost, hlo, layout, vmem, flags, fusion, serial,
          scratch⟩) ∧
    (∀ (asm : List Nat) (vmem : Option Int) (cost : Option CostEstimate)
        (flags : Option (List (List Char × FlagValue))) (fusion : Option (List Bool))
        (scratch : Option Int) (serial : Option Int) (comm hlo layout : Bool)
        (dt : Option (List Char)),
      lowered_to_custom_call_config asm vmem cost flags fusion scratch none serial
          false comm hlo layout dt =
        .ok ⟨asm, comm, none, dt, cost, hlo, layout, vmem, flags, fusion, serial,
          scratch⟩) := by
  refine ⟨?_, ?_, ?_, ?_⟩ <;> intros <;> simp [lowered_to_custom_call_config]

set_option maxRecDepth 20000 in
/-- C5: the Module Lowerer runs its stages in strict order, failing fast on
verification failure: the optional hlo legalization sub-pipeline, memref
layout inference parameterized by the generation, canonicalize+cse, the
conditional assertion insertion, Mosaic canonicalization, vector-layout
inference with sublanes 8 and lanes 128, vector-layout application with
sublanes 8, lanes 128, the generation, matrix-unit tile size
`128 if g < 6 else 256` and scratch bound `8 × 9 = 72`, and canonicalize+cse
again. -/
theorem C5_pipeline_order :
    (∀ (hlo : Bool) (checks : Option (List Char)) (g : Nat),
      lowerTpuKernelPipelines false hlo checks g = .error .verificationFailed) ∧
    (∀ (hlo : Bool) (g : Nat),
      lowerTpuKernelPipelines true hlo none g =
        .ok ((if hlo then [hloConversionPipeline] else []) ++
          [inferMemrefLayoutPipeline g, simplifyPipeline, canonicalizeMosaicPipeline,
           inferVectorLayoutPipeline, applyVectorLayoutPipeline g, simplifyPipeline])) ∧
    (∀ (hlo : Bool) (g : Nat),
      lowerTpuKernelPipelines true hlo (some (chrs "bounds")) g =
        .ok ((if hlo then [hloConversionPipeline] else []) ++
          [inferMemrefLayoutPipeline g, simplifyPipeline, assertInsertionPipeline,
           canonicalizeMosaicPipeline, inferVectorLayoutPipeline,
           applyVectorLayoutPipeline g, simplifyPipeline])) ∧
    (hloConversionPipeline =
      chrs "builtin.module(hlo-legalize-to-arithmetic,func.func(hlo-legalize-to-linalg),func.func(linalg-vectorization))") ∧
    (∀ g : Nat, inferMemrefLayoutPipeline g =
      chrs "builtin.module(func.func(tpu-infer-memref-layout\x7bhardware-generation=" ++
        natChars g ++ chrs "\x7d))") ∧
    (inferVectorLayoutPipeline =
      chrs "builtin.module(func.func(tpu-infer-vector-layout\x7bsublane-count=8 lane-count=128\x7d))") ∧
    (∀ g : Nat, applyVectorLayoutPipeline g =
      chrs "builtin.module(func.func(tpu-apply-vector-layout\x7b sublane-count=8 lane-count=128 hardware-generation=" ++
        natChars g ++ chrs " mxu-contracting-size=" ++ natChars (mxuSize g) ++
        chrs " mxu-noncontracting-size=" ++ natChars (mxuSize g) ++
        chrs " max-sublanes-in-scratch=72\x7d))") ∧
    (∀ g : Nat, mxuSize g = if g < 6 then 128 else 256) ∧
    (mxuSize 5 = 128 ∧ mxuSize 6 = 256) ∧ (8 * (8 + 1) = 72) := by
  refine ⟨?_, ?_, ?_, by decide, ?_, by decide, ?_, fun g => rfl, by decide, by decide⟩
  · intro hlo checks g
    simp [lowerTpuKernelPipelines]
  · intro hlo g
    simp [lowerTpuKernelPipelines, onDeviceChecksResult, pyTruthy]
  · intro hlo g
    have hres : onDeviceChecksResult (some (chrs "bounds")) = .ok true := by decide
    simp [lowerTpuKernelPipelines, hres]
  · intro g
    rfl
  · intro g
    have e1 : natChars 8 = chrs "8" := by decide
    have e2 : natChars 128 = chrs "128" := by decide
    have e3 : natChars (8 * (8 + 1)) = chrs "72" := by decide
    simp only [applyVectorLayoutPipeline, e1, e2, e3]
    simp [chrs, List.append_assoc]

/-- C6, counterexample: a present-but-empty device-type tag (`some ""`) is
falsy in Python, so the code initializes `needs_layout_passes` to `True`
and returns it, while the claim — keyed to the tag being *absent* — demands
`False` here. -/
theorem C6_counterexample :
    (some ([] : List Char)) ≠ none ∧
    lower_mosaic_module_to_asm ⟨false, false, chrs "TPU v5", true, none, false, false⟩
        (some []) =
      .ok (none, false, false, false, true) := by
  constructor
  · simp
  · decide

/-- C6 (amended): `needs_hlo_passes` is initialized to the non-standard
dialect flag and `needs_layout_passes` to whether the device-type tag is
absent *or empty* (Python truthiness); the eager local pipeline runs iff
that initialized `needs_layout_passes` holds and the eager flag is enabled,
returning both flags `false` on success; in every other case the returned
flags equal their initialized values and the module is serialized
unlowered. -/
theorem C6_lowering_decision (env : LoweringEnv) (dt : Option (List Char)) :
    (¬ ((!pyTruthy dt) = true ∧ env.use_python_pipeline = true) →
      lower_mosaic_module_to_asm env dt =
        .ok (none, env.has_communication, env.has_custom_barrier, env.allow_hlo,
          !pyTruthy dt)) ∧
    (∀ g, (!pyTruthy dt) = true → env.use_python_pipeline = true →
      parseDeviceGeneration env.device_kind = .ok g →
      (lowerTpuKernelPipelines env.module_verifies env.allow_hlo
          env.on_device_checks g).isOk = true →
      lower_mosaic_module_to_asm env dt =
        .ok (some g, env.has_communication, env.has_custom_barrier, false, false)) ∧
    (∀ g rest, lower_mosaic_module_to_asm env dt = .ok (some g, rest) →
      (!pyTruthy dt) = true ∧ env.use_python_pipeline = true) ∧
    (∀ r2 r3 r4 r5, lower_mosaic_module_to_asm env dt = .ok (none, r2, r3, r4, r5) →
      r2 = env.has_communication ∧ r3 = env.has_custom_barrier ∧
        r4 = env.allow_hlo ∧ r5 = !pyTruthy dt) := by
  refine ⟨?_, ?_, ?_, ?_⟩
  · intro h
    have hc : ((!pyTruthy dt) && env.use_python_pipeline) = false := by
      cases h1 : (!pyTruthy dt) with
      | false => simp [h1]
      | true =>
        cases h2 : env.use_python_pipeline with
        | false => simp [h2]
        | true => exact absurd ⟨h1, h2⟩ h
    simp [lower_mosaic_module_to_asm, hc]
  · intro g h1 h2 hg hok
    cases hp : lowerTpuKernelPipelines env.module_verifies env.allow_hlo
        env.on_device_checks g with
    | error e => rw [hp] at hok; simp [Except.isOk, Except.toBool] at hok
    | ok pl => simp [lower_mosaic_module_to_asm, h1, h2, hg, hp]
  · intro g rest h
    by_cases hc : ((!pyTruthy dt) && env.use_python_pipeline) = true
    · exact Bool.and_eq_true_iff.mp hc
    · rw [Bool.not_eq_true] at hc
      simp [lower_mosaic_module_to_asm, hc] at h
  · intro r2 r3 r4 r5 h
    by_cases hc : ((!pyTruthy dt) && env.use_python_pipeline) = true
    · rw [lower_mosaic_module_to_asm] at h
      simp only [hc, if_true] at h
      cases hp : parseDeviceGeneration env.device_kind with
      | error e => simp [hp] at h
      | ok g =>
        cases hl : lowerTpuKernelPipelines env.module_verifies env.allow_hlo
            env.on_device_checks g with
        | error e => simp [hp, hl] at h
        | ok pl => simp [hp, hl] at h
    · rw [Bool.not_eq_true] at hc
      simp [lower_mosaic_module_to_asm, hc] at h
      obtain ⟨h2, h3, h4, h5⟩ := h
      refine ⟨h2.symm, h3.symm, h4.symm, ?_⟩
      rw [h5, Bool.not_not]

/-- C6 witness: eager lowering on a `TPU v5` device with no device-type
tag. -/
theorem C6_lowering_decision_witness :
    lower_mosaic_module_to_asm ⟨false, true, chrs "TPU v5", true, none, true, false⟩
        none =
      .ok (some 5, true, false, false, false) :=
  (C6_lowering_decision _ _).2.1 5 rfl rfl (by decide) (by decide)

/-- C7, counterexample: with manual axes `{a, b}` strictly containing the
mesh axes `{a}`, every mesh axis is in the manual scope, yet the code —
which tests set *equality* — rejects the call. -/
theorem C7_counterexample :
    ([chrs "a"].all (fun ax => [chrs "a", chrs "b"].contains ax)) = true ∧
    partitioningCheck (.spmdAxisContext [chrs "a", chrs "b"] [chrs "a"]) false =
      .error (chrs "Mosaic kernels cannot be automatically partitioned. Please wrap the call in a shard_map.") := by
  decide

/-- C7 (amended): in a manual-partitioning (SPMD) context emission succeeds
iff the manual scope equals the mesh axis set (as sets); in a fixed
device-count context iff the count is one; in any other context iff
`has_communication` is false; every rejection is one of the two
"not implemented" errors. -/
theorem C7_partitioning_validation (comm : Bool) :
    (∀ manual mesh, partitioningCheck (.spmdAxisContext manual mesh) comm = .ok () ↔
      sameSet manual mesh = true) ∧
    (∀ manual mesh, sameSet manual mesh = false →
      partitioningCheck (.spmdAxisContext manual mesh) comm =
        .error (chrs "Mosaic kernels cannot be automatically partitioned. Please wrap the call in a shard_map.")) ∧
    (∀ n, partitioningCheck (.shardingContext n) comm = .ok () ↔ n = 1) ∧
    (∀ n, n ≠ 1 → partitioningCheck (.shardingContext n) comm =
      .error (chrs "Mosaic kernels cannot be automatically partitioned. Please wrap the call in a shard_map.")) ∧
    (partitioningCheck .replicaContext comm = .ok () ↔ comm = false) ∧
    (comm = true → partitioningCheck .replicaContext comm =
      .error (chrs "Replica lowering for Mosaic kernels not implemented.")) := by
  refine ⟨?_, ?_, ?_, ?_, ?_, ?_⟩
  · intro manual mesh
    by_cases h : sameSet manual mesh = true <;> simp [partitioningCheck, h]
  · intro manual mesh h
    simp [partitioningCheck, h]
  · intro n
    by_cases h : n = 1 <;> simp [partitioningCheck, h]
  · intro n h
    simp [partitioningCheck, h]
  · cases comm <;> simp [partitioningCheck]
  · intro h
    simp [partitioningCheck, h]

/-- C7 witness: rejection at distinct singleton axis sets. -/
theorem C7_partitioning_validation_witness :
    sameSet [chrs "x"] [chrs "y"] = false ∧
    partitioningCheck (.spmdAxisContext [chrs "x"] [chrs "y"]) false =
      .error (chrs "Mosaic kernels cannot be automatically partitioned. Please wrap the call in a shard_map.") :=
  ⟨by decide, (C7_partitioning_validation false).2.1 _ _ (by decide)⟩

/-- C8: device-kind parsing requires the literal prefix `TPU v` (fatal
otherwise) and takes the first character after the prefix as a decimal
digit: `TPU v4` gives 4, `TPU v4lite` gives 4, `GPU` fails. -/
theorem C8_device_kind_parsing :
    (∀ dk, (chrs "TPU v").isPrefixOf dk = false →
      parseDeviceGeneration dk = .error (.unrecognizedDeviceKind dk)) ∧
    (∀ (ch : Char) (rest : List Char), ch.isDigit = true →
      parseDeviceGeneration (chrs "TPU v" ++ ch :: rest) = .ok (ch.toNat - 48)) ∧
    (∀ (ch : Char) (rest : List Char), ch.isDigit = false →
      parseDeviceGeneration (chrs "TPU v" ++ ch :: rest) = .error .intParseFailure) ∧
    (parseDeviceGeneration (chrs "TPU v") = .error .indexOutOfRange) ∧
    (parseDeviceGeneration (chrs "TPU v4") = .ok 4) ∧
    (parseDeviceGeneration (chrs "TPU v4lite") = .ok 4) ∧
    (parseDeviceGeneration (chrs "GPU") = .error (.unrecognizedDeviceKind (chrs "GPU"))) := by
  refine ⟨?_, ?_, ?_, by decide, by decide, by decide, by decide⟩
  · intro dk h
    simp [parseDeviceGeneration, h]
  · intro ch rest h
    have hpre : (chrs "TPU v").isPrefixOf (chrs "TPU v" ++ ch :: rest) = true := by
      simp [List.isPrefixOf_iff_prefix]
    rw [parseDeviceGeneration, if_pos hpre]
    rw [show (chrs "TPU v" ++ ch :: rest).drop 5 = ch :: rest from by
      rw [show (5 : Nat) = (chrs "TPU v").length from rfl, List.drop_left]]
    simp [h]
  · intro ch rest h
    have hpre : (chrs "TPU v").isPrefixOf (chrs "TPU v" ++ ch :: rest) = true := by
      simp [List.isPrefixOf_iff_prefix]
    rw [parseDeviceGeneration, if_pos hpre]
    rw [show (chrs "TPU v" ++ ch :: rest).drop 5 = ch :: rest from by
      rw [show (5 : Nat) = (chrs "TPU v").length from rfl, List.drop_left]]
    simp [h]

/-- C8 witness: the prefix-failure and digit-parsing cases at concrete
inputs. -/
theorem C8_device_kind_parsing_witness :
    ((chrs "TPU v").isPrefixOf (chrs "GPU") = false ∧
      parseDeviceGeneration (chrs "GPU") = .error (.unrecognizedDeviceKind (chrs "GPU"))) ∧
    ('7'.isDigit = true ∧
      parseDeviceGeneration (chrs "TPU v" ++ '7' :: chrs "pod") = .ok ('7'.toNat - 48)) :=
  ⟨⟨by decide, C8_device_kind_parsing.1 _ (by decide)⟩,
   ⟨by decide, C8_device_kind_parsing.2.1 '7' (chrs "pod") (by decide)⟩⟩

set_option maxRecDepth 20000 in
/-- C9, counterexample: the on-device-check flag set to the *empty string*
is falsy in Python, so the block is silently skipped — no error is raised
and no assertion stage runs — while the claim (splitting any set value on
commas) demands a fatal error listing the empty token. -/
theorem C9_counterexample :
    (some ([] : List Char)) ≠ none ∧
    onDeviceChecksResult (some []) = .ok false ∧
    lowerTpuKernelPipelines true false (some []) 5 =
      .ok [inferMemrefLayoutPipeline 5, simplifyPipeline, canonicalizeMosaicPipeline,
        inferVectorLayoutPipeline, applyVectorLayoutPipeline 5, simplifyPipeline] := by
  refine ⟨by simp, by decide, by decide⟩

/-- C9 (amended): when the on-device-check flag is set to a *non-empty*
string, it is split on commas into a set of tokens: exactly `{"bounds"}`
runs the assertion-insertion stage; any other token present is a fatal
error whose payload lists exactly the unrecognized (non-`bounds`) tokens,
and the assertion stage is not run; an unset flag runs no check stage and
raises no error. -/
theorem C9_on_device_checks (s : List Char) :
    (onDeviceChecksResult none = .ok false) ∧
    (s ≠ [] → (splitComma s).dedup = [chrs "bounds"] → ∀ (hlo : Bool) (g : Nat),
      lowerTpuKernelPipelines true hlo (some s) g =
        .ok ((if hlo then [hloConversionPipeline] else []) ++
          [inferMemrefLayoutPipeline g, simplifyPipeline, assertInsertionPipeline,
           canonicalizeMosaicPipeline, inferVectorLayoutPipeline,
           applyVectorLayoutPipeline g, simplifyPipeline])) ∧
    (s ≠ [] → (splitComma s).dedup ≠ [chrs "bounds"] → ∀ (hlo : Bool) (g : Nat),
      lowerTpuKernelPipelines true hlo (some s) g =
        .error (.unrecognizedChecks (((splitComma s).dedup).erase (chrs "bounds")))) ∧
    (∀ t, t ∈ ((splitComma s).dedup).erase (chrs "bounds") ↔
      (t ∈ splitComma s ∧ t ≠ chrs "bounds")) := by
  refine ⟨by decide, ?_, ?_, ?_⟩
  · intro h1 h2 hlo g
    have hres : onDeviceChecksResult (some s) = .ok true := by
      simp [onDeviceChecksResult, pyTruthy, h1, h2]
    simp [lowerTpuKernelPipelines, hres]
  · intro h1 h2 hlo g
    have hne : (splitComma s).dedup ≠ [] := by
      simp [List.dedup_eq_nil]
      exact splitComma_ne_nil s
    have hres : onDeviceChecksResult (some s) =
        .error (.unrecognizedChecks (((splitComma s).dedup).erase (chrs "bounds"))) := by
      simp [onDeviceChecksResult, pyTruthy, h1, h2, hne]
    simp [lowerTpuKernelPipelines, hres]
  · intro t
    rw [List.Nodup.mem_erase_iff (List.nodup_dedup _), List.mem_dedup]
    tauto

/-- C9 witness: the fatal case at the concrete flag value `bounds,other`. -/
theorem C9_on_device_checks_witness :
    (chrs "bounds,other" ≠ ([] : List Char)) ∧
    ((splitComma (chrs "bounds,other")).dedup ≠ [chrs "bounds"]) ∧
    lowerTpuKernelPipelines true false (some (chrs "bounds,other")) 4 =
      .error (.unrecognizedChecks
        (((splitComma (chrs "bounds,other")).dedup).erase (chrs "bounds"))) :=
  ⟨by decide, by decide,
    (C9_on_device_checks (chrs "bounds,other")).2.2.1 (by decide) (by decide) false 4⟩

/-- C10: each of the keys `has_communication`, `needs_hlo_passes` and
`needs_layout_passes` appears in the encoded payload iff the corresponding
boolean field is `True`; a false value is never serialized. -/
theorem C10_boolean_fields (c : CustomCallBackendConfig) (ht : Tame c)
    (hok : cfgFirstBad c = none) :
    c.to_json = .ok (jsonChars c) ∧
    (keyAppears "has_communication" (jsonChars c) ↔ c.has_communication = true) ∧
    (keyAppears "needs_hlo_passes" (jsonChars c) ↔ c.needs_hlo_passes = true) ∧
    (keyAppears "needs_layout_passes" (jsonChars c) ↔ c.needs_layout_passes = true) := by
  obtain ⟨h1, h2, h3, h4, h5, h6, h7⟩ := key_presence c ht
  exact ⟨to_json_ok c hok, h1, h4, h6⟩

set_option maxRecDepth 20000 in
/-- C10 witness: the boolean-field iffs at a concrete config with
`has_communication = true`, `needs_hlo_passes = true`,
`needs_layout_passes = false`. -/
theorem C10_boolean_fields_witness :
    Tame ⟨[], true, none, none, none, true, false, none, none, none, none, none⟩ ∧
    cfgFirstBad ⟨[], true, none, none, none, true, false, none, none, none, none, none⟩ =
      none ∧
    (CustomCallBackendConfig.to_json
        ⟨[], true, none, none, none, true, false, none, none, none, none, none⟩ =
      .ok (jsonChars ⟨[], true, none, none, none, true, false, none, none, none, none,
        none⟩) ∧
    (keyAppears "has_communication"
        (jsonChars ⟨[], true, none, none, none, true, false, none, none, none, none,
          none⟩) ↔
      CustomCallBackendConfig.has_communication
        ⟨[], true, none, none, none, true, false, none, none, none, none, none⟩ = true) ∧
    (keyAppears "needs_hlo_passes"
        (jsonChars ⟨[], true, none, none, none, true, false, none, none, none, none,
          none⟩) ↔
      CustomCallBackendConfig.needs_hlo_passes
        ⟨[], true, none, none, none, true, false, none, none, none, none, none⟩ = true) ∧
    (keyAppears "needs_layout_passes"
        (jsonChars ⟨[], true, none, none, none, true, false, none, none, none, none,
          none⟩) ↔
      CustomCallBackendConfig.needs_layout_passes
        ⟨[], true, none, none, none, true, false, none, none, none, none, none⟩ = true)) :=
  ⟨by decide, by decide, C10_boolean_fields _ (by decide) (by decide)⟩
